import Mathlib

/-!
# The 68000 interface layer of Virtual Jaguar (`src/m68000/m68kinterface.c`)

A shallow embedding of `m68kinterface.c`: the register file and the file's
static variables become one explicit machine state, every C function becomes
a function on that state, and the collaborators the file only declares (memory
bus, interrupt acknowledge, opcode handlers, status-register packing, the
decode tables) are the fields of an environment `Env`.

Machine integers: `uint32_t` / `unsigned int` values are naturals reduced
modulo `2^32`; `int` / `int32_t` values are integers wrapped to the two's
complement range by `toInt32`.
-/

namespace M68K

/-! ## Machine integers -/

/-- Conversion of an integer to `uint32_t`: reduction modulo `2^32`. -/
def toUInt32 (x : Int) : Nat := (x % 4294967296).toNat

/-- Conversion of an integer to `int` / `int32_t`: two's complement wrap-around
into `[-2^31, 2^31)`, the value of the low 32 bits read as signed. -/
def toInt32 (x : Int) : Int :=
  if toUInt32 x < 2147483648 then (toUInt32 x : Int) else (toUInt32 x : Int) - 4294967296

/-! ## Constants of `m68kinterface.c` and `m68kinterface.h` -/

def EXCEPTION_UNINITIALIZED_INTERRUPT : Nat := 15
def EXCEPTION_SPURIOUS_INTERRUPT : Nat := 24
def EXCEPTION_INTERRUPT_AUTOVECTOR : Nat := 24
def M68K_INT_ACK_AUTOVECTOR : Nat := 0xFFFFFFFF
def M68K_INT_ACK_SPURIOUS : Nat := 0xFFFFFFFE

/-- Index of `M68K_REG_A7` in `m68k_register_t`; `m68k_areg(regs, 7)` is `regs.regs[15]`. -/
def M68K_REG_A7 : Nat := 15
def M68K_REG_PC : Nat := 16
def M68K_REG_SR : Nat := 17
def M68K_REG_SP : Nat := 18
def M68K_REG_USP : Nat := 19
def M68K_REG_PREF_ADDR : Nat := 20
def M68K_REG_PREF_DATA : Nat := 21
def M68K_REG_PPC : Nat := 22
def M68K_REG_IR : Nat := 23

/-! ## Data model -/

/-- What the collaborators are seen to do, in order: the calls that leave
`m68kinterface.c` through the acknowledge callback, the memory bus and the
dispatch table. -/
inductive Event where
  | irq_ack (level : Int)
  | read_32 (address : Nat)
  | write_32 (address value : Nat)
  | write_16 (address value : Nat)
  | dispatch (opcode : Nat)
  deriving DecidableEq

/-- The register file `regs` (its `struct` is declared in `cpudefs.h`, outside
the file embedded here): the fields `m68kinterface.c` touches, with the C
types their use there shows (`int oldLevel = regs.intLevel`, 32-bit registers,
signed cycle counters). -/
structure regstruct where
  regs : Nat → Nat
  sr : Nat
  s : Nat
  stopped : Nat
  intmask : Int
  intLevel : Int
  c : Nat
  z : Nat
  n : Nat
  v : Nat
  x : Nat
  pc : Nat
  spcflags : Nat
  prefetch_pc : Nat
  prefetch : Nat
  remainingCycles : Int
  interruptCycles : Int

/-- A slot of `cpuFunctionTable`: a `cpuop_func *`. Function pointers are
compared by identity, so a handler other than `IllegalOpcode` is its number
in the generated handler set; `null` is the unset pointer. -/
inductive cpuop_func where
  | null
  | IllegalOpcode
  | op (id : Nat)
  deriving DecidableEq

/-- A row of the descriptor list `op_smalltbl_5_ff` (`struct cputbl`). -/
structure cputbl where
  handler : cpuop_func
  opcode : Nat

/-- An entry of the decode table `table68k` (`struct instr`): the fields
`BuildCPUFunctionTable` reads. -/
structure instr where
  mnemo : Nat
  clev : Nat
  handler : Int

/-- The whole state `m68kinterface.c` works on: the register file, the file's
static variables, the dispatch table, the bus memory (one byte per address)
and the record of calls to collaborators. -/
structure Machine where
  regs : regstruct
  initialCycles : Int
  adjustedCycles : Int
  executedCycles : Int
  m68k_clocks_mult : Int
  cpuFunctionTable : Nat → cpuop_func
  checkForIRQToHandle : Int
  IRQLevelToHandle : Int
  emulation_initialized : Nat
  mem : Nat → Nat
  trace : List Event

/-- The collaborators of `m68kinterface.c`, none of which it defines. -/
structure Env where
  /-- The callback `int irq_ack_handler(int)`. -/
  irq_ack_handler : Int → Int
  /-- The word `MakeSR()` packs from the decomposed status fields. -/
  packSR : regstruct → Nat
  /-- The effect of `MakeFromSR()`, which unpacks `regs.sr`. -/
  MakeFromSR : regstruct → regstruct
  /-- The instrumentation hook `M68KInstructionHook()`. -/
  M68KInstructionHook : Machine → Machine
  /-- The instruction word `get_iword(o)` fetches at the program counter. -/
  get_iword : Machine → Nat → Nat
  /-- The generated opcode handlers: handler number, opcode, state; the
  result is the new state and the returned `unsigned long`. -/
  handler : Nat → Nat → Machine → Machine × Nat
  /-- The exception entry `Exception(nr, oldpc, src)`. -/
  Exception : Nat → Nat → Nat → Machine → Machine
  /-- The prefetch latch `refill_prefetch(currpc, offs)` loads: address and word. -/
  refill_prefetch : Nat → Nat → (Nat → Nat) → Nat × Nat
  SPCFLAG_DEBUGGER : Nat
  M68000_EXC_SRC_CPU : Nat
  i_ILLG : Nat
  /-- The descriptor list, up to and including its terminating null row. -/
  op_smalltbl_5_ff : List cputbl
  /-- The decode table left by `read_table68k()` and `do_merges()`. -/
  table68k : Nat → instr

/-! ## The memory bus

The bus primitives are only declared in `m68kinterface.h`. Here memory is a
flat big-endian byte store with 32-bit addresses, in which a read returns
what was last written. -/

/-- Modelled from the spec: the bus read `readByte(address) -> value`, on a
flat byte store with 32-bit addresses. -/
def readByte (mem : Nat → Nat) (address : Nat) : Nat := mem (address % 4294967296) % 256

/-- Modelled from the spec: the bus read `readWord(address) -> value`, big-endian. -/
def readWord (mem : Nat → Nat) (address : Nat) : Nat :=
  readByte mem address * 256 + readByte mem (address + 1)

/-- Modelled from the spec: the bus read `readLong(address) -> value`, big-endian. -/
def readLong (mem : Nat → Nat) (address : Nat) : Nat :=
  readByte mem address * 16777216 + readByte mem (address + 1) * 65536
    + readByte mem (address + 2) * 256 + readByte mem (address + 3)

/-- Modelled from the spec: the bus write `writeWord(address, value)`, which
stores the low 16 bits of the value, big-endian. -/
def writeWord (mem : Nat → Nat) (address value : Nat) : Nat → Nat :=
  fun a =>
    if a = address % 4294967296 then value / 256 % 256
    else if a = (address + 1) % 4294967296 then value % 256
    else mem a

/-- Modelled from the spec: the bus write `writeLong(address, value)`, which
stores the low 32 bits of the value, big-endian. -/
def writeLong (mem : Nat → Nat) (address value : Nat) : Nat → Nat :=
  fun a =>
    if a = address % 4294967296 then value / 16777216 % 256
    else if a = (address + 1) % 4294967296 then value / 65536 % 256
    else if a = (address + 2) % 4294967296 then value / 256 % 256
    else if a = (address + 3) % 4294967296 then value % 256
    else mem a

/-- The bus read `m68k_read_memory_16(address)`. -/
def m68k_read_memory_16 (address : Nat) (m : Machine) : Nat := readWord m.mem address

/-- The bus read `m68k_read_memory_32(address)`: the value, and the state with the call recorded. -/
def m68k_read_memory_32 (address : Nat) (m : Machine) : Nat × Machine :=
  (readLong m.mem address, { m with trace := m.trace ++ [Event.read_32 address] })

/-- The bus write `m68k_write_memory_32(address, value)`, recorded. -/
def m68k_write_memory_32 (address value : Nat) (m : Machine) : Machine :=
  { m with mem := writeLong m.mem address value,
           trace := m.trace ++ [Event.write_32 address value] }

/-- The bus write `m68k_write_memory_16(address, value)`, recorded. -/
def m68k_write_memory_16 (address value : Nat) (m : Machine) : Machine :=
  { m with mem := writeWord m.mem address value,
           trace := m.trace ++ [Event.write_16 address value] }

/-! ## Register-file helpers declared outside `m68kinterface.c` -/

/-- Modelled from the spec: `m68k_setpc(x)` sets the program counter, the
value `m68k_get_reg` returns for `M68K_REG_PC`. -/
def m68k_setpc (newpc : Nat) (m : Machine) : Machine :=
  { m with regs := { m.regs with pc := newpc } }

/-- Modelled from the spec: `MakeSR()` "recomputes the packed status-register
value from decomposed condition-code/mask/privilege state" into the 16-bit
`regs.sr`; the packing itself is the environment's. -/
def MakeSR (env : Env) (m : Machine) : Machine :=
  { m with regs := { m.regs with sr := env.packSR m.regs % 65536 } }

/-- Modelled from the spec: `refill_prefetch(currpc, offs)` reloads the
prefetch latch, which is opaque to this file, and nothing else. -/
def refill_prefetch (env : Env) (currpc offs : Nat) (m : Machine) : Machine :=
  { m with regs := { m.regs with prefetch_pc := (env.refill_prefetch currpc offs m.mem).1,
                                 prefetch := (env.refill_prefetch currpc offs m.mem).2 } }

/-- The assignment `m68k_areg(regs, 7) = value`. -/
def set_areg7 (value : Nat) (m : Machine) : Machine :=
  { m with regs := { m.regs with regs := Function.update m.regs.regs 15 value } }

/-! ## Debug controls -/

/-- The function `M68KDebugHalt()`: `regs.spcflags |= SPCFLAG_DEBUGGER`. -/
def M68KDebugHalt (env : Env) (m : Machine) : Machine :=
  { m with regs := { m.regs with spcflags := m.regs.spcflags ||| env.SPCFLAG_DEBUGGER } }

/-- The function `M68KDebugResume()`: `regs.spcflags &= ~SPCFLAG_DEBUGGER`, on 32 bits. -/
def M68KDebugResume (env : Env) (m : Machine) : Machine :=
  { m with regs := { m.regs with
      spcflags := m.regs.spcflags &&& (4294967295 ^^^ env.SPCFLAG_DEBUGGER) } }

/-! ## Illegal opcodes and the dispatch table -/

/-- The handler `IllegalOpcode(opcode)`: the state after the exception it
raises, and the cycles it returns. -/
def IllegalOpcode (env : Env) (opcode : Nat) (m : Machine) : Machine × Nat :=
  if opcode &&& 0xF000 = 0xF000 then
    (env.Exception 0x0B 0 env.M68000_EXC_SRC_CPU m, 4)
  else if opcode &&& 0xF000 = 0xA000 then
    (env.Exception 0x0A 0 env.M68000_EXC_SRC_CPU m, 4)
  else
    (env.Exception 0x04 0 env.M68000_EXC_SRC_CPU m, 4)

/-- First loop of `BuildCPUFunctionTable`: slots `0 .. count-1` are set to
`IllegalOpcode`, in ascending order. -/
def fillIllegal : Nat → (Nat → cpuop_func) → (Nat → cpuop_func)
  | 0, t => t
  | count + 1, t => Function.update (fillIllegal count t) count cpuop_func.IllegalOpcode

/-- Second loop of `BuildCPUFunctionTable`: each descriptor before the first
null handler is installed at its opcode. -/
def installDescriptors : List cputbl → (Nat → cpuop_func) → (Nat → cpuop_func)
  | [], t => t
  | d :: ds, t =>
    if d.handler = cpuop_func.null then t
    else installDescriptors ds (Function.update t d.opcode d.handler)

/-- Third loop of `BuildCPUFunctionTable` over `count` opcodes from `opcode`
on; `none` is `abort()`. -/
def redirectOpcodes (env : Env) : Nat → Nat → (Nat → cpuop_func) → Option (Nat → cpuop_func)
  | 0, _, t => some t
  | count + 1, opcode, t =>
    if (env.table68k opcode).mnemo = env.i_ILLG ∨ (env.table68k opcode).clev > 0 then
      redirectOpcodes env count (opcode + 1) t
    else if (env.table68k opcode).handler ≠ -1 then
      if t (env.table68k opcode).handler.toNat = cpuop_func.IllegalOpcode then none
      else redirectOpcodes env count (opcode + 1)
        (Function.update t opcode (t (env.table68k opcode).handler.toNat))
    else redirectOpcodes env count (opcode + 1) t

/-- The table `BuildCPUFunctionTable()` leaves in `cpuFunctionTable`, or
`none` when it aborts. -/
def BuildCPUFunctionTable (env : Env) (t : Nat → cpuop_func) : Option (Nat → cpuop_func) :=
  redirectOpcodes env 65536 0 (installDescriptors env.op_smalltbl_5_ff (fillIllegal 65536 t))

/-- A call through a slot of the dispatch table; a call through the null
pointer has no result. -/
def callHandler (env : Env) : cpuop_func → Nat → Machine → Option (Machine × Nat)
  | cpuop_func.null, _, _ => none
  | cpuop_func.IllegalOpcode, opcode, m => some (IllegalOpcode env opcode m)
  | cpuop_func.op id, opcode, m => some (env.handler id opcode m)

/-! ## Exception delivery -/

/-- The function `m68ki_init_exception()`: the packed status register, then supervisor mode. -/
def m68ki_init_exception (env : Env) (m : Machine) : Nat × Machine :=
  ((MakeSR env m).regs.sr,
   { MakeSR env m with regs := { (MakeSR env m).regs with s := 1 } })

/-- The function `m68ki_stack_frame_3word(pc, sr)`. -/
def m68ki_stack_frame_3word (pc sr : Nat) (m : Machine) : Machine :=
  let m1 := set_areg7 (toUInt32 ((m.regs.regs 15 : Int) - 4)) m
  let m2 := m68k_write_memory_32 (m1.regs.regs 15) pc m1
  let m3 := set_areg7 (toUInt32 ((m2.regs.regs 15 : Int) - 2)) m2
  m68k_write_memory_16 (m3.regs.regs 15) sr m3

/-- Lines 198-208 of `m68ki_exception_interrupt`: what follows once the
vector is resolved. -/
def m68ki_exception_interrupt_deliver (env : Env) (intLevel vector : Nat) (m : Machine) :
    Machine :=
  let (sr, m1) := m68ki_init_exception env m
  let m2 := { m1 with regs := { m1.regs with intmask := toInt32 intLevel } }
  let (newPC, m3) := m68k_read_memory_32 (vector * 4 % 4294967296) m2
  let (newPC, m4) :=
    if newPC = 0 then m68k_read_memory_32 (EXCEPTION_UNINITIALIZED_INTERRUPT * 4) m3
    else (newPC, m3)
  let m5 := m68ki_stack_frame_3word m4.regs.pc sr m4
  let m6 := m68k_setpc newPC m5
  { m6 with regs := { m6.regs with
      interruptCycles := toInt32 (m6.regs.interruptCycles + 56) } }

/-- The value of `vector` after `vector = irq_ack_handler(intLevel)`. -/
def ackVector (env : Env) (intLevel : Nat) : Nat :=
  toUInt32 (env.irq_ack_handler (toInt32 intLevel))

/-- The function `m68ki_exception_interrupt(intLevel)`. -/
def m68ki_exception_interrupt (env : Env) (intLevel : Nat) (m : Machine) : Machine :=
  let m1 := { m with regs := { m.regs with stopped := 0 },
                     trace := m.trace ++ [Event.irq_ack (toInt32 intLevel)] }
  if ackVector env intLevel = M68K_INT_ACK_AUTOVECTOR then
    m68ki_exception_interrupt_deliver env intLevel
      ((EXCEPTION_INTERRUPT_AUTOVECTOR + intLevel) % 4294967296) m1
  else if ackVector env intLevel = M68K_INT_ACK_SPURIOUS then
    m68ki_exception_interrupt_deliver env intLevel EXCEPTION_SPURIOUS_INTERRUPT m1
  else if ackVector env intLevel > 255 then m1
  else m68ki_exception_interrupt_deliver env intLevel (ackVector env intLevel) m1

/-- The function `m68ki_check_interrupts()`. -/
def m68ki_check_interrupts (env : Env) (m : Machine) : Machine :=
  if m.regs.intLevel > m.regs.intmask then
    m68ki_exception_interrupt env (toUInt32 m.regs.intLevel) m
  else m

/-! ## IRQ setters -/

/-- The function `m68k_set_irq2(intLevel)`. -/
def m68k_set_irq2 (env : Env) (intLevel : Nat) (m : Machine) : Machine :=
  let oldLevel := m.regs.intLevel
  let m1 := { m with regs := { m.regs with intLevel := toInt32 intLevel } }
  if oldLevel ≠ 7 ∧ m1.regs.intLevel = 7 then m68ki_exception_interrupt env 7 m1
  else m68ki_check_interrupts env m1

/-- The function `m68k_set_irq(intLevel)`. -/
def m68k_set_irq (env : Env) (intLevel : Nat) (m : Machine) : Machine :=
  if m.regs.stopped ≠ 0 then m68k_set_irq2 env intLevel m
  else { m with IRQLevelToHandle := toInt32 intLevel, checkForIRQToHandle := 1 }

/-! ## Reset -/

/-- Lines 87-96 of `m68k_pulse_reset`: the register file is reset and the
initial stack pointer and program counter are loaded. -/
def m68k_pulse_reset_registers (env : Env) (m0 : Machine) : Machine :=
  let m1 := { m0 with regs := { m0.regs with
    spcflags := 0, stopped := 0, remainingCycles := 0, intmask := 7, s := 1 } }
  let (sp, m2) := m68k_read_memory_32 0 m1
  let m3 := set_areg7 sp m2
  let (pc, m4) := m68k_read_memory_32 4 m3
  let m5 := m68k_setpc pc m4
  refill_prefetch env m5.regs.pc 0 m5

/-- The function `m68k_pulse_reset()`; `none` when the first-call table build aborts. -/
def m68k_pulse_reset (env : Env) (m : Machine) : Option Machine :=
  if m.emulation_initialized = 0 then
    (BuildCPUFunctionTable env m.cpuFunctionTable).map
      (fun t => m68k_pulse_reset_registers env
        { m with cpuFunctionTable := t, emulation_initialized := 1 })
  else some (m68k_pulse_reset_registers env m)

/-! ## The execution loop -/

/-- Lines 101-107 of `m68k_execute`: the state a stopped processor is left in. -/
def m68k_execute_stopped (m : Machine) : Machine :=
  { m with executedCycles := 0,
           regs := { m.regs with remainingCycles := 0, interruptCycles := 0 } }

/-- Lines 109-115 of `m68k_execute`: the state in which the loop is entered. -/
def m68k_execute_enter (num_cycles : Int) (m : Machine) : Machine :=
  { m with initialCycles := num_cycles,
           adjustedCycles := toInt32 (num_cycles * m.m68k_clocks_mult),
           executedCycles := 0,
           regs := { m.regs with
             remainingCycles :=
               toInt32 (toInt32 (num_cycles * m.m68k_clocks_mult) - m.regs.interruptCycles),
             interruptCycles := 0 } }

/-- Lines 124-127 of `m68k_execute`: the return taken when the debugger flag is set. -/
def m68k_execute_halt (m : Machine) : Machine × Int :=
  ({ m with executedCycles := toInt32 (m.adjustedCycles - m.regs.remainingCycles),
            regs := { m.regs with remainingCycles := 0, interruptCycles := 0 } },
   Int.tdiv (toInt32 (m.adjustedCycles - m.regs.remainingCycles)) m.m68k_clocks_mult)

/-- Lines 130-134 of `m68k_execute`: a pending interrupt request is resolved. -/
def m68k_execute_pending (env : Env) (m : Machine) : Machine :=
  if m.checkForIRQToHandle ≠ 0 then
    m68k_set_irq2 env (toUInt32 m.IRQLevelToHandle) { m with checkForIRQToHandle := 0 }
  else m

/-- Lines 136-141 of `m68k_execute`: the hook, the fetch and the call through
the dispatch table; the result is the state the handler leaves and the
`unsigned long` it returns, and there is none when the table slot is null. -/
def m68k_execute_dispatch (env : Env) (m : Machine) : Option (Machine × Nat) :=
  callHandler env
    ((env.M68KInstructionHook m).cpuFunctionTable
      (env.get_iword (env.M68KInstructionHook m) 0 % 65536))
    (env.get_iword (env.M68KInstructionHook m) 0 % 65536)
    { env.M68KInstructionHook m with
      trace := (env.M68KInstructionHook m).trace
        ++ [Event.dispatch (env.get_iword (env.M68KInstructionHook m) 0 % 65536)] }

/-- Lines 130-142 of `m68k_execute`: pending interrupt, hook, fetch, dispatch
and billing; the result is the new state and the `cycles` billed. -/
def m68k_execute_step (env : Env) (m : Machine) : Option (Machine × Int) :=
  (m68k_execute_dispatch env (m68k_execute_pending env m)).map
    (fun r =>
      ({ r.1 with regs := { r.1.regs with
          remainingCycles := toInt32 (r.1.regs.remainingCycles - toInt32 r.2) } },
       toInt32 r.2))

/-- Lines 146-150 of `m68k_execute`: the normal return. -/
def m68k_execute_leave (m : Machine) : Machine × Int :=
  ({ m with executedCycles := toInt32 (m.adjustedCycles - m.regs.remainingCycles),
            regs := { m.regs with
              remainingCycles := toInt32 (m.regs.remainingCycles - m.regs.interruptCycles),
              interruptCycles := 0 } },
   Int.tdiv (toInt32 (m.adjustedCycles - m.regs.remainingCycles)) m.m68k_clocks_mult)

/-- The `do ... while (regs.remainingCycles > 0)` loop of `m68k_execute`,
with at most `fuel` passes; `none` when the passes run out or a null slot is
called. -/
def m68k_execute_loop (env : Env) : Nat → Machine → Option (Machine × Int)
  | 0, _ => none
  | fuel + 1, m =>
    if m.regs.spcflags &&& env.SPCFLAG_DEBUGGER ≠ 0 then some (m68k_execute_halt m)
    else
      match m68k_execute_step env m with
      | none => none
      | some (m1, _) =>
        if m1.regs.remainingCycles > 0 then m68k_execute_loop env fuel m1
        else some (m68k_execute_leave m1)

/-- The function `m68k_execute(num_cycles)`: the final state and the returned value. -/
def m68k_execute (env : Env) (fuel : Nat) (num_cycles : Int) (m : Machine) :
    Option (Machine × Int) :=
  if m.regs.stopped ≠ 0 then some (m68k_execute_stopped m, num_cycles)
  else m68k_execute_loop env fuel (m68k_execute_enter num_cycles m)

/-! ## Accessors -/

/-- The function `m68k_get_reg(context, reg)`: the value, and the state
(reading the status register repacks `regs.sr`). -/
def m68k_get_reg (env : Env) (reg : Nat) (m : Machine) : Nat × Machine :=
  if reg ≤ M68K_REG_A7 then (m.regs.regs reg, m)
  else if reg = M68K_REG_PC then (m.regs.pc, m)
  else if reg = M68K_REG_SR then ((MakeSR env m).regs.sr, MakeSR env m)
  else if reg = M68K_REG_SP then (m.regs.regs 15, m)
  else (0, m)

/-- The function `m68k_set_reg(reg, value)`. -/
def m68k_set_reg (env : Env) (reg value : Nat) (m : Machine) : Machine :=
  if reg ≤ M68K_REG_A7 then
    { m with regs := { m.regs with regs := Function.update m.regs.regs reg value } }
  else if reg = M68K_REG_PC then { m with regs := { m.regs with pc := value } }
  else if reg = M68K_REG_SR then
    { m with regs := env.MakeFromSR { m.regs with sr := value % 65536 } }
  else if reg = M68K_REG_SP then
    { m with regs := { m.regs with regs := Function.update m.regs.regs 15 value } }
  else m

/-- The function `m68k_is_valid_instruction(instruction, cpu_type)`. -/
def m68k_is_valid_instruction (instruction _cpu_type : Nat) (m : Machine) : Nat :=
  if m.cpuFunctionTable (instruction &&& 0xFFFF) ≠ cpuop_func.IllegalOpcode then 1 else 0

/-- The function `m68k_cycles_run()`, with C's truncating division. -/
def m68k_cycles_run (m : Machine) : Int := Int.tdiv m.executedCycles m.m68k_clocks_mult

/-- The function `m68k_cycles_remaining()`, with C's truncating division. -/
def m68k_cycles_remaining (m : Machine) : Int :=
  Int.tdiv m.regs.remainingCycles m.m68k_clocks_mult

/-- The function `m68k_modify_timeslice(cycles)`. -/
def m68k_modify_timeslice (cycles : Int) (m : Machine) : Machine :=
  { m with regs := { m.regs with remainingCycles := toInt32 (cycles * m.m68k_clocks_mult) } }

/-- The function `m68k_end_timeslice()`. -/
def m68k_end_timeslice (m : Machine) : Machine :=
  { m with initialCycles := m.regs.remainingCycles,
           regs := { m.regs with remainingCycles := 0 } }

/-- The function `m68k_set_clocks_mult(mult)`. -/
def m68k_set_clocks_mult (mult : Int) (m : Machine) : Machine :=
  { m with m68k_clocks_mult := if mult ≥ 1 then mult else 1 }

/-- The function `m68k_get_clocks_mult()`. -/
def m68k_get_clocks_mult (m : Machine) : Int := m.m68k_clocks_mult

/-! ## Derived notions used in the statements -/

/-- The vector `m68ki_exception_interrupt` goes on with when the acknowledge
result is a sentinel or at most 255 (lines 191-196). -/
def resolvedVector (env : Env) (intLevel : Nat) : Nat :=
  if ackVector env intLevel = M68K_INT_ACK_AUTOVECTOR then
    (EXCEPTION_INTERRUPT_AUTOVECTOR + intLevel) % 4294967296
  else if ackVector env intLevel = M68K_INT_ACK_SPURIOUS then EXCEPTION_SPURIOUS_INTERRUPT
  else ackVector env intLevel

/-- The long lines 200-203 load for a vector: the entry at `vector << 2`, or
the entry of the uninitialized-interrupt vector when that one is zero. -/
def vectorTarget (mem : Nat → Nat) (vector : Nat) : Nat :=
  if readLong mem (vector * 4 % 4294967296) = 0 then
    readLong mem (EXCEPTION_UNINITIALIZED_INTERRUPT * 4)
  else readLong mem (vector * 4 % 4294967296)

/-- The bus reads lines 200-203 make for a vector. -/
def vectorReads (mem : Nat → Nat) (vector : Nat) : List Event :=
  if readLong mem (vector * 4 % 4294967296) = 0 then
    [Event.read_32 (vector * 4 % 4294967296),
     Event.read_32 (EXCEPTION_UNINITIALIZED_INTERRUPT * 4)]
  else [Event.read_32 (vector * 4 % 4294967296)]

/-- The acknowledge result lets `m68ki_exception_interrupt` deliver: it is a
sentinel or at most 255. -/
def Delivers (env : Env) (intLevel : Nat) : Prop :=
  ackVector env intLevel = M68K_INT_ACK_AUTOVECTOR
    ∨ ackVector env intLevel = M68K_INT_ACK_SPURIOUS ∨ ackVector env intLevel ≤ 255

/-- Two states agree on what the execution loop keeps for itself: both
cycle counters, the special flags, the pending-interrupt flag, the clock
multiplier, the scaled budget and the dispatch table. -/
def CountersUntouched (x y : Machine) : Prop :=
  y.regs.remainingCycles = x.regs.remainingCycles
    ∧ y.regs.interruptCycles = x.regs.interruptCycles
    ∧ y.regs.spcflags = x.regs.spcflags
    ∧ y.checkForIRQToHandle = x.checkForIRQToHandle
    ∧ y.m68k_clocks_mult = x.m68k_clocks_mult
    ∧ y.adjustedCycles = x.adjustedCycles
    ∧ y.cpuFunctionTable = x.cpuFunctionTable

/-- The instruction stream from a state: `k` passes through lines 130-142
whatever the loop test says; the result is the state reached and the sum of
the cycles billed, and there is none when a pass calls a null slot. -/
def instructionStream (env : Env) : Nat → Machine → Option (Machine × Int)
  | 0, m => some (m, 0)
  | k + 1, m =>
    match m68k_execute_step env m with
    | none => none
    | some (m1, c) => (instructionStream env k m1).map (fun r => (r.1, c + r.2))

/-! ## A concrete machine

Every handler costs 4 cycles and advances the program counter by 2, the
acknowledge callback autovectors, the clock multiplier is 2 and the interrupt
mask is 5. Memory holds `0x00001000` at address 0, `0x00002000` at address 4
and `0x00001234` at the level-6 autovector entry `0x78`. -/

/-- The example environment. -/
def demoEnv : Env where
  irq_ack_handler := fun _ => -1
  packSR := fun r => r.s % 2 * 8192 + r.intmask.toNat % 8 * 256
    + r.x % 2 * 16 + r.n % 2 * 8 + r.z % 2 * 4 + r.v % 2 * 2 + r.c % 2
  MakeFromSR := fun r => r
  M68KInstructionHook := fun m => m
  get_iword := fun m o => readWord m.mem (m.regs.pc + o)
  handler := fun _ _ m => ({ m with regs := { m.regs with pc := (m.regs.pc + 2) % 4294967296 } }, 4)
  Exception := fun _ _ _ m => m
  refill_prefetch := fun currpc offs mem => (currpc + offs, readLong mem (currpc + offs))
  SPCFLAG_DEBUGGER := 2048
  M68000_EXC_SRC_CPU := 1
  i_ILLG := 0
  op_smalltbl_5_ff := [⟨cpuop_func.null, 0⟩]
  table68k := fun _ => ⟨0, 0, -1⟩

/-- The example register file: running, mask 5, stack pointer `0x4000`, program counter `0x2000`. -/
def demoRegs : regstruct where
  regs := fun i => if i = 15 then 0x4000 else 0
  sr := 0
  s := 0
  stopped := 0
  intmask := 5
  intLevel := 0
  c := 0
  z := 0
  n := 0
  v := 0
  x := 0
  pc := 0x2000
  spcflags := 0
  prefetch_pc := 0
  prefetch := 0
  remainingCycles := 0
  interruptCycles := 0

/-- The example machine. -/
def demoMachine : Machine where
  regs := demoRegs
  initialCycles := 0
  adjustedCycles := 0
  executedCycles := 0
  m68k_clocks_mult := 2
  cpuFunctionTable := fun _ => cpuop_func.op 0
  checkForIRQToHandle := 0
  IRQLevelToHandle := 0
  emulation_initialized := 1
  mem := fun a => if a = 0x7A then 0x12 else if a = 0x7B then 0x34
    else if a = 2 then 0x10 else if a = 6 then 0x20 else 0
  trace := []


/-- The example machine with level 7 already latched (mask 5). -/
def demoLatched7 : Machine :=
  { demoMachine with regs := { demoRegs with intLevel := 7 } }

/-- The example machine with a level-6 request pending. -/
def demoPending : Machine :=
  { demoMachine with checkForIRQToHandle := 1, IRQLevelToHandle := 6 }

/-- The example machine, stopped. -/
def demoStopped : Machine :=
  { demoMachine with regs := { demoRegs with stopped := 1 } }

/-- The state the example machine with the pending level-6 request is in
after `m68k_execute(1)`. -/
def demoAfterDelivery : Machine :=
  ((m68k_execute demoEnv 1 1 demoPending).getD (demoPending, 0)).1


/-- The example machine with one slot of the dispatch table, `0x4AFC`, left
on the illegal-opcode handler. -/
def demoIllegalSlot : Machine :=
  { demoMachine with
    cpuFunctionTable := fun i => if i = 0x4AFC then cpuop_func.IllegalOpcode else cpuop_func.op 0 }

/-- The rows of a descriptor list that `BuildCPUFunctionTable` installs:
those before the first row with a null handler. -/
def installedRows (tbl : List cputbl) : List cputbl :=
  tbl.takeWhile (fun d => decide (d.handler ≠ cpuop_func.null))

/-- The redirect targets of the decode table are `-1` or table indices. -/
def RedirectTargetsInRange (env : Env) : Prop :=
  ∀ opcode : Nat, opcode < 65536 →
    (env.table68k opcode).handler = -1
    ∨ (0 ≤ (env.table68k opcode).handler ∧ (env.table68k opcode).handler < 65536)

/-- The opcodes the third loop of `BuildCPUFunctionTable` rewrites: the
mnemonic is not `i_ILLG`, the compatibility level is 0 and the redirect
target is not `-1`. -/
def QualifyingRedirect (env : Env) (opcode : Nat) : Prop :=
  (env.table68k opcode).mnemo ≠ env.i_ILLG ∧ (env.table68k opcode).clev = 0
    ∧ (env.table68k opcode).handler ≠ -1

/-- An example environment for the table: two installed rows (`0x4E71`,
`0x1000`), a row after the terminator, and a decode table in which `0x1001`
redirects to `0x1000`, and `0x3000` is illegal. -/
def demoTableEnv : Env :=
  { demoEnv with
    op_smalltbl_5_ff :=
      [⟨cpuop_func.op 1, 0x4E71⟩, ⟨cpuop_func.op 2, 0x1000⟩, ⟨cpuop_func.null, 0⟩,
       ⟨cpuop_func.op 3, 0x2000⟩]
    table68k := fun o =>
      if o = 0x1001 then ⟨1, 0, 0x1000⟩
      else if o = 0x4E71 ∨ o = 0x1000 then ⟨1, 0, -1⟩
      else ⟨0, 0, -1⟩ }

/-- The table `BuildCPUFunctionTable` leaves in the example environment. -/
def demoTable (t : Nat → cpuop_func) : Nat → cpuop_func :=
  Function.update
    (installDescriptors demoTableEnv.op_smalltbl_5_ff (fillIllegal 65536 t))
    0x1001 (cpuop_func.op 2)

/-- The example environment of the table with the descriptor list empty: the
handler that `0x1001` redirects to is not registered. -/
def demoAbortEnv : Env :=
  { demoTableEnv with
    op_smalltbl_5_ff := [⟨cpuop_func.null, 0⟩] }

/-- The collaborators reach the file-static clock multiplier only through
`m68k_set_clocks_mult`: the hook, the handlers and the exception entry, run
on a state whose multiplier is at least 1, leave it at least 1. -/
def EnvKeepsMultiplierPositive (env : Env) : Prop :=
  (∀ m : Machine, 1 ≤ m.m68k_clocks_mult → 1 ≤ (env.M68KInstructionHook m).m68k_clocks_mult)
  ∧ (∀ (id opcode : Nat) (m : Machine), 1 ≤ m.m68k_clocks_mult →
      1 ≤ (env.handler id opcode m).1.m68k_clocks_mult)
  ∧ (∀ (nr oldpc src : Nat) (m : Machine), 1 ≤ m.m68k_clocks_mult →
      1 ≤ (env.Exception nr oldpc src m).m68k_clocks_mult)

/-- The states the functions of `m68kinterface.c` lead to from program start,
where `m68k_clocks_mult` has its initializer 1. -/
inductive Reachable (env : Env) : Machine → Prop where
  | start (m : Machine) : m.m68k_clocks_mult = 1 → Reachable env m
  | set_clocks_mult (mult : Int) (m : Machine) :
      Reachable env m → Reachable env (m68k_set_clocks_mult mult m)
  | pulse_reset (m m' : Machine) :
      Reachable env m → m68k_pulse_reset env m = some m' → Reachable env m'
  | execute (fuel : Nat) (num_cycles : Int) (m : Machine) (r : Machine × Int) :
      Reachable env m → m68k_execute env fuel num_cycles m = some r → Reachable env r.1
  | set_irq (intLevel : Nat) (m : Machine) :
      Reachable env m → Reachable env (m68k_set_irq env intLevel m)
  | set_irq2 (intLevel : Nat) (m : Machine) :
      Reachable env m → Reachable env (m68k_set_irq2 env intLevel m)
  | exception_interrupt (intLevel : Nat) (m : Machine) :
      Reachable env m → Reachable env (m68ki_exception_interrupt env intLevel m)
  | get_reg (reg : Nat) (m : Machine) :
      Reachable env m → Reachable env (m68k_get_reg env reg m).2
  | set_reg (reg value : Nat) (m : Machine) :
      Reachable env m → Reachable env (m68k_set_reg env reg value m)
  | modify_timeslice (cycles : Int) (m : Machine) :
      Reachable env m → Reachable env (m68k_modify_timeslice cycles m)
  | end_timeslice (m : Machine) : Reachable env m → Reachable env (m68k_end_timeslice m)
  | debug_halt (m : Machine) : Reachable env m → Reachable env (M68KDebugHalt env m)
  | debug_resume (m : Machine) : Reachable env m → Reachable env (M68KDebugResume env m)

instance (env : Env) (intLevel : Nat) : Decidable (Delivers env intLevel) := by
  unfold Delivers
  infer_instance

/-! # Theorems

## Machine integers and memory -/

theorem toInt32_of_range (x : Int) (h1 : -2147483648 ≤ x) (h2 : x < 2147483648) :
    toInt32 x = x := by
  unfold toInt32 toUInt32
  split_ifs <;> omega

theorem toInt32_range (x : Int) : -2147483648 ≤ toInt32 x ∧ toInt32 x < 2147483648 := by
  unfold toInt32 toUInt32
  split_ifs <;> omega

theorem toUInt32_toInt32 (n : Nat) : toUInt32 (toInt32 n) = n % 4294967296 := by
  unfold toInt32 toUInt32
  split_ifs <;> omega

theorem toInt32_mod (n : Nat) : toInt32 ((n % 4294967296 : Nat) : Int) = toInt32 n := by
  unfold toInt32 toUInt32
  split_ifs <;> omega

theorem toUInt32_sub_sub (a : Nat) :
    toUInt32 ((toUInt32 ((a : Int) - 4) : Int) - 2) = toUInt32 ((a : Int) - 6) := by
  unfold toUInt32
  omega

theorem deliver_eq (env : Env) (L vec : Nat) (m : Machine) :
    m68ki_exception_interrupt_deliver env L vec m =
      { m with
        regs := { m.regs with
          sr := env.packSR m.regs % 65536
          s := 1
          intmask := toInt32 L
          regs := Function.update m.regs.regs 15 (toUInt32 ((m.regs.regs 15 : Int) - 6))
          pc := vectorTarget m.mem vec
          interruptCycles := toInt32 (m.regs.interruptCycles + 56) }
        mem := writeWord (writeLong m.mem (toUInt32 ((m.regs.regs 15 : Int) - 4)) m.regs.pc)
          (toUInt32 ((m.regs.regs 15 : Int) - 6)) (env.packSR m.regs % 65536)
        trace := m.trace ++ (vectorReads m.mem vec ++
          [Event.write_32 (toUInt32 ((m.regs.regs 15 : Int) - 4)) m.regs.pc,
           Event.write_16 (toUInt32 ((m.regs.regs 15 : Int) - 6))
             (env.packSR m.regs % 65536)]) } := by
  unfold m68ki_exception_interrupt_deliver vectorTarget vectorReads
  by_cases h : readLong m.mem (vec * 4 % 4294967296) = 0 <;>
    simp [h, m68ki_init_exception, m68ki_stack_frame_3word, m68k_setpc, m68k_write_memory_16,
      m68k_write_memory_32, set_areg7, m68k_read_memory_32, MakeSR, toUInt32_sub_sub]

theorem and_F000 (w : Nat) : w &&& 0xF000 = w / 4096 % 16 * 4096 := by
  apply Nat.eq_of_testBit_eq
  intro i
  have h1 : (0xF000 : Nat) = 2 ^ 12 * (2 ^ 4 - 1) := by norm_num
  have h2 : w / 4096 % 16 * 4096 = 2 ^ 12 * (w / 2 ^ 12 % 2 ^ 4) := by
    rw [Nat.mul_comm]; norm_num
  rw [Nat.testBit_and, h1, h2, Nat.testBit_mul_pow_two, Nat.testBit_mul_pow_two,
    Nat.testBit_two_pow_sub_one, Nat.testBit_mod_two_pow, ← Nat.shiftRight_eq_div_pow,
    Nat.testBit_shiftRight]
  by_cases h : 12 ≤ i
  · by_cases h' : i - 12 < 4
    · have e : 12 + (i - 12) = i := by omega
      simp [h, h', e]
    · simp [h, h']
  · simp [h]


/-! ## Exception delivery and interrupt resolution -/

theorem exception_interrupt_trace (env : Env) (L : Nat) (m : Machine) :
    ∃ rest, (m68ki_exception_interrupt env L m).trace
      = m.trace ++ Event.irq_ack (toInt32 L) :: rest := by
  unfold m68ki_exception_interrupt
  split_ifs
  · rw [deliver_eq]; exact ⟨_, List.append_assoc _ _ _⟩
  · rw [deliver_eq]; exact ⟨_, List.append_assoc _ _ _⟩
  · exact ⟨[], rfl⟩
  · rw [deliver_eq]; exact ⟨_, List.append_assoc _ _ _⟩

theorem not_trace_grows (t : List Event) (e : Event) :
    ¬ ∃ rest, t = t ++ e :: rest := by
  rintro ⟨rest, h⟩
  have := congrArg List.length h
  simp at this


theorem exception_interrupt_intLevel (env : Env) (L : Nat) (m : Machine) :
    (m68ki_exception_interrupt env L m).regs.intLevel = m.regs.intLevel := by
  unfold m68ki_exception_interrupt
  split_ifs
  · rw [deliver_eq]
  · rw [deliver_eq]
  · rfl
  · rw [deliver_eq]

theorem exception_interrupt_delivers (env : Env) (L : Nat) (m : Machine)
    (h : Delivers env L) :
    m68ki_exception_interrupt env L m =
      m68ki_exception_interrupt_deliver env L (resolvedVector env L)
        { m with regs := { m.regs with stopped := 0 },
                 trace := m.trace ++ [Event.irq_ack (toInt32 L)] } := by
  unfold m68ki_exception_interrupt resolvedVector
  by_cases h1 : ackVector env L = M68K_INT_ACK_AUTOVECTOR
  · rw [if_pos h1, if_pos h1]
  · rw [if_neg h1, if_neg h1]
    by_cases h2 : ackVector env L = M68K_INT_ACK_SPURIOUS
    · rw [if_pos h2, if_pos h2]
    · rw [if_neg h2, if_neg h2]
      have h3 : ¬ ackVector env L > 255 := by
        unfold Delivers at h
        rcases h with h | h | h
        · exact absurd h h1
        · exact absurd h h2
        · omega
      rw [if_neg h3]

theorem exception_interrupt_malformed (env : Env) (L : Nat) (m : Machine)
    (h1 : ackVector env L ≠ M68K_INT_ACK_AUTOVECTOR) (h2 : ackVector env L ≠ M68K_INT_ACK_SPURIOUS)
    (h3 : ackVector env L > 255) :
    m68ki_exception_interrupt env L m =
      { m with regs := { m.regs with stopped := 0 },
               trace := m.trace ++ [Event.irq_ack (toInt32 L)] } := by
  unfold m68ki_exception_interrupt
  rw [if_neg h1, if_neg h2, if_pos h3]

theorem readByte_mod (mem : Nat → Nat) (a : Nat) :
    readByte mem (a % 4294967296) = readByte mem a := by
  unfold readByte
  rw [Nat.mod_mod]

theorem readByte_congr (mem : Nat → Nat) (a b : Nat) (h : a % 4294967296 = b % 4294967296) :
    readByte mem a = readByte mem b := by
  unfold readByte
  rw [h]

theorem readLong_congr (mem : Nat → Nat) (a b : Nat) (h : a % 4294967296 = b % 4294967296) :
    readLong mem a = readLong mem b := by
  unfold readLong
  rw [readByte_congr mem a b h, readByte_congr mem (a + 1) (b + 1) (by omega),
    readByte_congr mem (a + 2) (b + 2) (by omega), readByte_congr mem (a + 3) (b + 3) (by omega)]

theorem readLong_after_frame (mem : Nat → Nat) (sp pc sr : Nat) :
    readLong (writeWord (writeLong mem (toUInt32 ((sp : Int) - 4)) pc)
        (toUInt32 ((sp : Int) - 6)) sr) (toUInt32 ((sp : Int) - 6) + 2)
      = pc % 4294967296 := by
  unfold readLong readByte writeWord writeLong toUInt32
  have e0 : ((((sp : Int) - 6) % 4294967296).toNat + 2) % 4294967296
      = (((sp : Int) - 4) % 4294967296).toNat % 4294967296 := by omega
  have e1 : ((((sp : Int) - 6) % 4294967296).toNat + 2 + 1) % 4294967296
      = ((((sp : Int) - 4) % 4294967296).toNat + 1) % 4294967296 := by omega
  have e2 : ((((sp : Int) - 6) % 4294967296).toNat + 2 + 2) % 4294967296
      = ((((sp : Int) - 4) % 4294967296).toNat + 2) % 4294967296 := by omega
  have e3 : ((((sp : Int) - 6) % 4294967296).toNat + 2 + 3) % 4294967296
      = ((((sp : Int) - 4) % 4294967296).toNat + 3) % 4294967296 := by omega
  rw [e0, e1, e2, e3]
  generalize hA : (((sp : Int) - 4) % 4294967296).toNat = A
  generalize hB : (((sp : Int) - 6) % 4294967296).toNat = B
  have hAB : B % 4294967296 = (A + 4294967294) % 4294967296 := by omega
  have hA4 : A < 4294967296 := by omega
  have n0 : ¬ A % 4294967296 = B % 4294967296 := by omega
  have n0' : ¬ A % 4294967296 = (B + 1) % 4294967296 := by omega
  have n1 : ¬ (A + 1) % 4294967296 = B % 4294967296 := by omega
  have n1' : ¬ (A + 1) % 4294967296 = (B + 1) % 4294967296 := by omega
  have n2 : ¬ (A + 2) % 4294967296 = B % 4294967296 := by omega
  have n2' : ¬ (A + 2) % 4294967296 = (B + 1) % 4294967296 := by omega
  have n3 : ¬ (A + 3) % 4294967296 = B % 4294967296 := by omega
  have n3' : ¬ (A + 3) % 4294967296 = (B + 1) % 4294967296 := by omega
  have d1 : ¬ (A + 1) % 4294967296 = A % 4294967296 := by omega
  have d2 : ¬ (A + 2) % 4294967296 = A % 4294967296 := by omega
  have d2' : ¬ (A + 2) % 4294967296 = (A + 1) % 4294967296 := by omega
  have d3 : ¬ (A + 3) % 4294967296 = A % 4294967296 := by omega
  have d3' : ¬ (A + 3) % 4294967296 = (A + 1) % 4294967296 := by omega
  have d3'' : ¬ (A + 3) % 4294967296 = (A + 2) % 4294967296 := by omega
  simp only [n0, n0', n1, n1', n2, n2', n3, n3', d1, d2, d2', d3, d3', d3'', if_true, if_false,
    Nat.mod_mod]
  omega

theorem readWord_after_frame (mem : Nat → Nat) (a sr : Nat) :
    readWord (writeWord mem a sr) a = sr % 65536 := by
  unfold readWord readByte writeWord
  have d : ¬ (a + 1) % 4294967296 = a % 4294967296 := by omega
  simp only [d, if_true, if_false, Nat.mod_mod]
  omega

theorem deliver_intmask (env : Env) (L vec : Nat) (m : Machine) :
    (m68ki_exception_interrupt_deliver env L vec m).regs.intmask = toInt32 L := by
  rw [deliver_eq]

theorem toInt32_seven : toInt32 ((7 : Nat) : Int) = 7 := by decide

theorem set_irq2_edge (env : Env) (L : Nat) (m : Machine)
    (h : m.regs.intLevel ≠ 7 ∧ toInt32 (L : Int) = 7) :
    m68k_set_irq2 env L m = m68ki_exception_interrupt env 7
      { m with regs := { m.regs with intLevel := toInt32 L } } := by
  unfold m68k_set_irq2
  exact if_pos h

theorem set_irq2_level (env : Env) (L : Nat) (m : Machine)
    (h : ¬ (m.regs.intLevel ≠ 7 ∧ toInt32 (L : Int) = 7)) :
    m68k_set_irq2 env L m = m68ki_check_interrupts env
      { m with regs := { m.regs with intLevel := toInt32 L } } := by
  unfold m68k_set_irq2
  exact if_neg h

theorem check_interrupts_above (env : Env) (m : Machine) (h : m.regs.intmask < m.regs.intLevel) :
    m68ki_check_interrupts env m = m68ki_exception_interrupt env (toUInt32 m.regs.intLevel) m := by
  unfold m68ki_check_interrupts
  exact if_pos h

theorem check_interrupts_masked (env : Env) (m : Machine)
    (h : ¬ m.regs.intmask < m.regs.intLevel) :
    m68ki_check_interrupts env m = m := by
  unfold m68ki_check_interrupts
  exact if_neg h

theorem set_irq2_above (env : Env) (L : Nat) (m : Machine)
    (hno : ¬ (m.regs.intLevel ≠ 7 ∧ toInt32 (L : Int) = 7)) (h : m.regs.intmask < toInt32 L) :
    m68k_set_irq2 env L m = m68ki_exception_interrupt env (L % 4294967296)
      { m with regs := { m.regs with intLevel := toInt32 L } } := by
  rw [set_irq2_level env L m hno, check_interrupts_above env
    { m with regs := { m.regs with intLevel := toInt32 L } } h]
  exact congrArg (fun k => m68ki_exception_interrupt env k _) (toUInt32_toInt32 L)

theorem set_irq2_masked (env : Env) (L : Nat) (m : Machine)
    (hno : ¬ (m.regs.intLevel ≠ 7 ∧ toInt32 (L : Int) = 7)) (h : ¬ m.regs.intmask < toInt32 L) :
    m68k_set_irq2 env L m = { m with regs := { m.regs with intLevel := toInt32 L } } := by
  rw [set_irq2_level env L m hno, check_interrupts_masked env
    { m with regs := { m.regs with intLevel := toInt32 L } } h]

theorem set_irq2_ack_iff (env : Env) (L : Nat) (m : Machine)
    (hno : ¬ (m.regs.intLevel ≠ 7 ∧ toInt32 (L : Int) = 7)) :
    (∃ rest, (m68k_set_irq2 env L m).trace = m.trace ++ Event.irq_ack (toInt32 L) :: rest)
      ↔ m.regs.intmask < toInt32 L := by
  by_cases h : m.regs.intmask < toInt32 L
  · refine ⟨fun _ => h, fun _ => ?_⟩
    rw [set_irq2_above env L m hno h]
    obtain ⟨rest, hr⟩ := exception_interrupt_trace env (L % 4294967296)
      { m with regs := { m.regs with intLevel := toInt32 L } }
    exact ⟨rest, by rw [hr, toInt32_mod]⟩
  · refine ⟨fun hex => ?_, fun hlt => absurd hlt h⟩
    rw [set_irq2_masked env L m hno h] at hex
    exact absurd hex (not_trace_grows _ _)

theorem not_edge_of (L : Nat) (m : Machine) (hedge : toInt32 L ≠ 7 ∨ m.regs.intLevel = 7) :
    ¬ (m.regs.intLevel ≠ 7 ∧ toInt32 (L : Int) = 7) := by
  rintro ⟨h1, h2⟩
  rcases hedge with h | h
  · exact h h2
  · exact h1 h

theorem latch_same (x : Machine) (hx : x.regs.intLevel = 7) :
    ({ x with regs := { x.regs with intLevel := 7 } } : Machine) = x := by
  cases x with
  | mk r a b c d e f g h i j =>
    cases r
    simp only at hx
    subst hx
    rfl

/-! ## The execution loop -/

theorem execute_pending_none (env : Env) (x : Machine) (h : x.checkForIRQToHandle = 0) :
    m68k_execute_pending env x = x := by
  unfold m68k_execute_pending
  exact if_neg (not_not.mpr h)

theorem execute_step_of_dispatch (env : Env) (x x1 : Machine) (ret : Nat)
    (h : x.checkForIRQToHandle = 0) (hd : m68k_execute_dispatch env x = some (x1, ret)) :
    m68k_execute_step env x
      = some ({ x1 with regs := { x1.regs with
          remainingCycles := toInt32 (x1.regs.remainingCycles - toInt32 ret) } }, toInt32 ret) := by
  unfold m68k_execute_step
  rw [execute_pending_none env x h, hd]
  rfl

theorem execute_loop_succ (env : Env) (fuel : Nat) (x x' : Machine) (c : Int)
    (hdbg : x.regs.spcflags &&& env.SPCFLAG_DEBUGGER = 0)
    (hstep : m68k_execute_step env x = some (x', c)) :
    m68k_execute_loop env (fuel + 1) x
      = if x'.regs.remainingCycles > 0 then m68k_execute_loop env fuel x'
        else some (m68k_execute_leave x') := by
  rw [m68k_execute_loop, if_neg (not_not.mpr hdbg), hstep]

theorem instructionStream_succ (env : Env) (k : Nat) (x x' : Machine) (c : Int)
    (hstep : m68k_execute_step env x = some (x', c)) :
    instructionStream env (k + 1) x
      = (instructionStream env k x').map (fun r => (r.1, c + r.2)) := by
  rw [instructionStream, hstep]

theorem execute_step_exists (env : Env) (T : Nat → cpuop_func)
    (hh : ∀ x : Machine, x.cpuFunctionTable = T →
      ∃ x1 ret, m68k_execute_dispatch env x = some (x1, ret) ∧ 1 ≤ toInt32 ret
        ∧ CountersUntouched x x1)
    (x : Machine) (hT : x.cpuFunctionTable = T) (hirq : x.checkForIRQToHandle = 0) :
    ∃ x' c, m68k_execute_step env x = some (x', c) ∧ 1 ≤ c ∧ c < 2147483648
      ∧ x'.regs.remainingCycles = toInt32 (x.regs.remainingCycles - c)
      ∧ x'.regs.interruptCycles = x.regs.interruptCycles
      ∧ x'.regs.spcflags = x.regs.spcflags
      ∧ x'.checkForIRQToHandle = x.checkForIRQToHandle
      ∧ x'.m68k_clocks_mult = x.m68k_clocks_mult
      ∧ x'.adjustedCycles = x.adjustedCycles
      ∧ x'.cpuFunctionTable = x.cpuFunctionTable := by
  obtain ⟨x1, ret, hd, hc, hu1, hu2, hu3, hu4, hu5, hu6, hu7⟩ := hh x hT
  refine ⟨{ x1 with regs := { x1.regs with
      remainingCycles := toInt32 (x1.regs.remainingCycles - toInt32 ret) } }, toInt32 ret,
    execute_step_of_dispatch env x x1 ret hirq hd, hc, (toInt32_range ret).2, ?_,
    hu2, hu3, hu4, hu5, hu6, hu7⟩
  show toInt32 (x1.regs.remainingCycles - toInt32 ret) = _
  rw [hu1]

theorem loop_accounting (env : Env) (T : Nat → cpuop_func)
    (hh : ∀ x : Machine, x.cpuFunctionTable = T →
      ∃ x1 ret, m68k_execute_dispatch env x = some (x1, ret) ∧ 1 ≤ toInt32 ret
        ∧ CountersUntouched x x1) :
    ∀ (n : Nat) (x : Machine), x.cpuFunctionTable = T → x.checkForIRQToHandle = 0 →
      x.regs.spcflags &&& env.SPCFLAG_DEBUGGER = 0 →
      x.regs.remainingCycles < 2147483648 → x.regs.remainingCycles ≤ n →
      ∃ k xk S, 1 ≤ k ∧ 1 ≤ S ∧ instructionStream env k x = some (xk, S)
        ∧ x.regs.remainingCycles ≤ S
        ∧ (∀ j mj Sj, 1 ≤ j → j < k → instructionStream env j x = some (mj, Sj) →
            Sj < x.regs.remainingCycles)
        ∧ (∀ fuel, fuel < k → m68k_execute_loop env fuel x = none)
        ∧ xk.regs.interruptCycles = x.regs.interruptCycles
        ∧ xk.m68k_clocks_mult = x.m68k_clocks_mult
        ∧ xk.adjustedCycles = x.adjustedCycles
        ∧ (-2147483648 ≤ x.regs.remainingCycles - S →
            xk.regs.remainingCycles = x.regs.remainingCycles - S
            ∧ ∀ fuel, k ≤ fuel → m68k_execute_loop env fuel x = some (m68k_execute_leave xk)) := by
  have last : ∀ (x x' : Machine) (c : Int),
      x.regs.spcflags &&& env.SPCFLAG_DEBUGGER = 0 →
      m68k_execute_step env x = some (x', c) → 1 ≤ c →
      x'.regs.remainingCycles = toInt32 (x.regs.remainingCycles - c) →
      x'.regs.interruptCycles = x.regs.interruptCycles →
      x'.m68k_clocks_mult = x.m68k_clocks_mult →
      x'.adjustedCycles = x.adjustedCycles →
      x.regs.remainingCycles - c ≤ 0 →
      ∃ k xk S, 1 ≤ k ∧ 1 ≤ S ∧ instructionStream env k x = some (xk, S)
        ∧ x.regs.remainingCycles ≤ S
        ∧ (∀ j mj Sj, 1 ≤ j → j < k → instructionStream env j x = some (mj, Sj) →
            Sj < x.regs.remainingCycles)
        ∧ (∀ fuel, fuel < k → m68k_execute_loop env fuel x = none)
        ∧ xk.regs.interruptCycles = x.regs.interruptCycles
        ∧ xk.m68k_clocks_mult = x.m68k_clocks_mult
        ∧ xk.adjustedCycles = x.adjustedCycles
        ∧ (-2147483648 ≤ x.regs.remainingCycles - S →
            xk.regs.remainingCycles = x.regs.remainingCycles - S
            ∧ ∀ fuel, k ≤ fuel →
                m68k_execute_loop env fuel x = some (m68k_execute_leave xk)) := by
    intro x x' c hdbg hstep hc hrem hi hm ha hle
    refine ⟨1, x', c, le_refl 1, hc, ?_, by omega, ?_, ?_, hi, hm, ha, ?_⟩
    · rw [instructionStream_succ env 0 x x' c hstep]
      simp [instructionStream]
    · intro j mj Sj h1 h2
      omega
    · intro fuel hf
      have : fuel = 0 := by omega
      subst this
      rfl
    · intro hov
      have hrem' : x'.regs.remainingCycles = x.regs.remainingCycles - c := by
        rw [hrem]
        exact toInt32_of_range _ hov (by omega)
      refine ⟨hrem', ?_⟩
      intro fuel hf
      obtain ⟨f, rfl⟩ : ∃ f, fuel = f + 1 := ⟨fuel - 1, by omega⟩
      rw [execute_loop_succ env f x x' c hdbg hstep]
      apply if_neg
      rw [hrem']
      omega
  intro n
  induction n with
  | zero =>
    intro x hT hirq hdbg hlt hn
    obtain ⟨x', c, hstep, hc, hc2, hrem, hi, hs, hq, hm, ha, ht⟩ :=
      execute_step_exists env T hh x hT hirq
    have hn0 : x.regs.remainingCycles ≤ 0 := by exact_mod_cast hn
    exact last x x' c hdbg hstep hc hrem hi hm ha (by omega)
  | succ n ih =>
    intro x hT hirq hdbg hlt hn
    obtain ⟨x', c, hstep, hc, hc2, hrem, hi, hs, hq, hm, ha, ht⟩ :=
      execute_step_exists env T hh x hT hirq
    by_cases hle : x.regs.remainingCycles - c ≤ 0
    · exact last x x' c hdbg hstep hc hrem hi hm ha hle
    · have hn1 : x.regs.remainingCycles ≤ (n : Int) + 1 := by exact_mod_cast hn
      have hrem' : x'.regs.remainingCycles = x.regs.remainingCycles - c := by
        rw [hrem]
        exact toInt32_of_range _ (by omega) (by omega)
      obtain ⟨k, xk, S, hk, hS, hstream, hge, hmin, hnone, hki, hkm, hka, hfin⟩ :=
        ih x' (by rw [ht, hT]) (by rw [hq, hirq]) (by rw [hs, hdbg]) (by omega) (by omega)
      refine ⟨k + 1, xk, c + S, by omega, by omega, ?_, by omega, ?_, ?_, by rw [hki, hi],
        by rw [hkm, hm], by rw [hka, ha], ?_⟩
      · rw [instructionStream_succ env k x x' c hstep, hstream]
        rfl
      · intro j mj Sj h1 h2 hj
        obtain ⟨j', rfl⟩ : ∃ j', j = j' + 1 := ⟨j - 1, by omega⟩
        rw [instructionStream_succ env j' x x' c hstep] at hj
        cases hs' : instructionStream env j' x' with
        | none => rw [hs'] at hj; simp at hj
        | some r =>
          rw [hs'] at hj
          simp only [Option.map_some', Option.some.injEq, Prod.mk.injEq] at hj
          obtain ⟨_, hsum⟩ := hj
          by_cases hj0 : j' = 0
          · subst hj0
            simp only [instructionStream, Option.some.injEq] at hs'
            rw [← hs'] at hsum
            simp only at hsum
            omega
          · have := hmin j' r.1 r.2 (by omega) (by omega) hs'
            omega
      · intro fuel hf
        cases fuel with
        | zero => rfl
        | succ f =>
          rw [execute_loop_succ env f x x' c hdbg hstep, if_pos (by omega)]
          exact hnone f (by omega)
      · intro hov
        obtain ⟨h1, h2⟩ := hfin (by omega)
        refine ⟨by omega, ?_⟩
        intro fuel hf
        obtain ⟨f, rfl⟩ : ∃ f, fuel = f + 1 := ⟨fuel - 1, by omega⟩
        rw [execute_loop_succ env f x x' c hdbg hstep, if_pos (by omega)]
        exact h2 f (by omega)

theorem demo_handlers (x : Machine) (hx : x.cpuFunctionTable = demoMachine.cpuFunctionTable) :
    ∃ x1 ret, m68k_execute_dispatch demoEnv x = some (x1, ret) ∧ 1 ≤ toInt32 ret
      ∧ CountersUntouched x x1 := by
  refine ⟨(demoEnv.handler 0 (demoEnv.get_iword x 0 % 65536)
      { x with trace := x.trace ++ [Event.dispatch (demoEnv.get_iword x 0 % 65536)] }).1, 4,
    ?_, by decide, ⟨rfl, rfl, rfl, rfl, rfl, rfl, rfl⟩⟩
  have hslot : x.cpuFunctionTable (demoEnv.get_iword x 0 % 65536) = cpuop_func.op 0 := by
    rw [hx]
    rfl
  unfold m68k_execute_dispatch
  show callHandler demoEnv (x.cpuFunctionTable (demoEnv.get_iword x 0 % 65536)) _ _ = _
  rw [hslot]
  rfl

theorem toInt32_idem (x : Int) : toInt32 (toInt32 x) = toInt32 x :=
  toInt32_of_range _ (toInt32_range x).1 (toInt32_range x).2

theorem execute_loop_interruptCycles (env : Env) :
    ∀ (fuel : Nat) (x m1 : Machine) (r : Int),
      m68k_execute_loop env fuel x = some (m1, r) → m1.regs.interruptCycles = 0 := by
  intro fuel
  induction fuel with
  | zero =>
    intro x m1 r h
    simp [m68k_execute_loop] at h
  | succ f ih =>
    intro x m1 r h
    rw [m68k_execute_loop] at h
    by_cases hd : x.regs.spcflags &&& env.SPCFLAG_DEBUGGER ≠ 0
    · rw [if_pos hd] at h
      simp only [Option.some.injEq] at h
      have e : m1 = (m68k_execute_halt x).1 := (congrArg Prod.fst h).symm
      rw [e]
      rfl
    · rw [if_neg hd] at h
      cases hs : m68k_execute_step env x with
      | none => rw [hs] at h; simp at h
      | some p =>
        obtain ⟨x', c⟩ := p
        rw [hs] at h
        simp only at h
        by_cases hr : x'.regs.remainingCycles > 0
        · rw [if_pos hr] at h
          exact ih x' m1 r h
        · rw [if_neg hr] at h
          simp only [Option.some.injEq] at h
          have e : m1 = (m68k_execute_leave x').1 := (congrArg Prod.fst h).symm
          rw [e]
          rfl


theorem redirectOpcodes_all_illegal (env : Env) (hill : ∀ o, (env.table68k o).mnemo = env.i_ILLG) :
    ∀ (count opcode : Nat) (t : Nat → cpuop_func),
      redirectOpcodes env count opcode t = some t := by
  intro count
  induction count with
  | zero => intro opcode t; rfl
  | succ n ih =>
    intro opcode t
    rw [redirectOpcodes, if_pos (Or.inl (hill opcode))]
    exact ih (opcode + 1) t

/-! ## Properties of the interface -/

/-- C1: for every budget `N` and every state whose stopped flag is set,
`m68k_execute(N)` returns `N` whatever the number of loop passes allowed (the
loop is not entered). The state it leaves is the state before with the
remaining-cycle counter, the interrupt-cycle accumulator and the
executed-cycle count set to 0: the record of collaborator calls is unchanged
(no handler dispatched, no acknowledge, no bus access), memory and the pending
request are unchanged, `m68k_cycles_run()` and `m68k_cycles_remaining()` are 0
and the stopped flag keeps its value. -/
theorem m68k_execute_stopped_returns_budget (env : Env) (fuel : Nat) (N : Int) (m : Machine)
    (hstop : m.regs.stopped ≠ 0) :
    m68k_execute env fuel N m
        = some ({ m with executedCycles := 0,
                         regs := { m.regs with remainingCycles := 0, interruptCycles := 0 } }, N)
      ∧ ∀ m' r, m68k_execute env fuel N m = some (m', r) →
          r = N ∧ m'.trace = m.trace ∧ m'.mem = m.mem
          ∧ m'.checkForIRQToHandle = m.checkForIRQToHandle
          ∧ m'.IRQLevelToHandle = m.IRQLevelToHandle
          ∧ m'.regs.intLevel = m.regs.intLevel
          ∧ m'.regs.remainingCycles = 0 ∧ m'.regs.interruptCycles = 0 ∧ m'.executedCycles = 0
          ∧ m68k_cycles_run m' = 0 ∧ m68k_cycles_remaining m' = 0
          ∧ m'.regs.stopped = m.regs.stopped := by
  have h : m68k_execute env fuel N m = some (m68k_execute_stopped m, N) := by
    unfold m68k_execute
    exact if_pos hstop
  refine ⟨h, ?_⟩
  intro m' r hr
  rw [h] at hr
  simp only [Option.some.injEq, Prod.mk.injEq] at hr
  obtain ⟨rfl, rfl⟩ := hr
  simp [m68k_execute_stopped, m68k_cycles_run, m68k_cycles_remaining]

/-- C1 at the stopped example machine with budget 100 and no loop pass allowed. -/
theorem m68k_execute_stopped_returns_budget_witness :
    demoStopped.regs.stopped ≠ 0
    ∧ m68k_execute demoEnv 0 100 demoStopped
        = some ({ demoStopped with
                  executedCycles := 0,
                  regs := { demoStopped.regs with remainingCycles := 0, interruptCycles := 0 } },
                100) :=
  ⟨by decide, (m68k_execute_stopped_returns_budget demoEnv 0 100 demoStopped (by decide)).1⟩

/-- C2 as stated fails: on the example machine (mask 5, nothing latched) the
level `0x80000006` is not a transition into level 7 and is greater than the
mask, yet resolving it calls no acknowledge callback and delivers nothing.
The register file holds the latched level as an `int`: `-2147483642` is
latched and compared with the mask. -/
theorem m68k_set_irq2_level_above_int_range :
    demoMachine.regs.intmask = 5 ∧ demoMachine.regs.intLevel ≠ 7
    ∧ (2147483654 : Nat) ≠ 7 ∧ demoMachine.regs.intmask < ((2147483654 : Nat) : Int)
    ∧ (m68k_set_irq2 demoEnv 2147483654 demoMachine).trace = demoMachine.trace
    ∧ (m68k_set_irq2 demoEnv 2147483654 demoMachine).regs.intLevel = -2147483642
    ∧ (m68k_set_irq2 demoEnv 2147483654 demoMachine).regs.pc = demoMachine.regs.pc
    ∧ (m68k_set_irq2 demoEnv 2147483654 demoMachine).regs.intmask = 5 := by
  decide

/-- C2, amended: priority-mask arbitration in `m68k_set_irq2`. For every
state and every level `L` below `2^31` (the interrupt levels 0 to 7 among
them) that is not a transition into level 7, resolving `L` latches `L` and
the acknowledge callback is called if and only if `L` is strictly greater
than the interrupt mask; when it is, the call is `m68ki_exception_interrupt`
on the latched state, and when it is not, the latched level is the only
change. For every level, of any size, the same holds of the `int` the
register file latches, which is `L - 2^32` for a 32-bit `L` of `2^31` or
more. With mask 5, level 3 changes nothing but the latched level and level 6
is acknowledged. -/
theorem m68k_set_irq2_priority_mask (env : Env) (m : Machine) :
    (∀ L : Nat, L < 2147483648 → (L ≠ 7 ∨ m.regs.intLevel = 7) →
      (m68k_set_irq2 env L m).regs.intLevel = L
      ∧ ((∃ rest, (m68k_set_irq2 env L m).trace = m.trace ++ Event.irq_ack L :: rest)
          ↔ m.regs.intmask < L)
      ∧ (m.regs.intmask < L →
          m68k_set_irq2 env L m = m68ki_exception_interrupt env L
            { m with regs := { m.regs with intLevel := L } })
      ∧ (¬ m.regs.intmask < L →
          m68k_set_irq2 env L m = { m with regs := { m.regs with intLevel := L } }))
    ∧ (∀ L : Nat, (toInt32 L ≠ 7 ∨ m.regs.intLevel = 7) →
      (L < 2147483648 → toInt32 L = L)
      ∧ (2147483648 ≤ L → L < 4294967296 → toInt32 L = L - 4294967296)
      ∧ (m68k_set_irq2 env L m).regs.intLevel = toInt32 L
      ∧ ((∃ rest, (m68k_set_irq2 env L m).trace = m.trace ++ Event.irq_ack (toInt32 L) :: rest)
          ↔ m.regs.intmask < toInt32 L)
      ∧ (m.regs.intmask < toInt32 L →
          m68k_set_irq2 env L m = m68ki_exception_interrupt env (L % 4294967296)
            { m with regs := { m.regs with intLevel := toInt32 L } })
      ∧ (¬ m.regs.intmask < toInt32 L →
          m68k_set_irq2 env L m = { m with regs := { m.regs with intLevel := toInt32 L } }))
    ∧ (m.regs.intmask = 5 →
        m68k_set_irq2 env 3 m = { m with regs := { m.regs with intLevel := 3 } }
        ∧ ∃ rest, (m68k_set_irq2 env 6 m).trace = m.trace ++ Event.irq_ack 6 :: rest) := by
  have main : ∀ L : Nat, (toInt32 L ≠ 7 ∨ m.regs.intLevel = 7) →
      (m68k_set_irq2 env L m).regs.intLevel = toInt32 L
      ∧ ((∃ rest, (m68k_set_irq2 env L m).trace = m.trace ++ Event.irq_ack (toInt32 L) :: rest)
          ↔ m.regs.intmask < toInt32 L)
      ∧ (m.regs.intmask < toInt32 L →
          m68k_set_irq2 env L m = m68ki_exception_interrupt env (L % 4294967296)
            { m with regs := { m.regs with intLevel := toInt32 L } })
      ∧ (¬ m.regs.intmask < toInt32 L →
          m68k_set_irq2 env L m = { m with regs := { m.regs with intLevel := toInt32 L } }) := by
    intro L hedge
    have hno := not_edge_of L m hedge
    refine ⟨?_, set_irq2_ack_iff env L m hno,
      set_irq2_above env L m hno, set_irq2_masked env L m hno⟩
    by_cases h : m.regs.intmask < toInt32 L
    · rw [set_irq2_above env L m hno h, exception_interrupt_intLevel]
    · rw [set_irq2_masked env L m hno h]
  have small : ∀ L : Nat, L < 2147483648 → (L ≠ 7 ∨ m.regs.intLevel = 7) →
      (m68k_set_irq2 env L m).regs.intLevel = L
      ∧ ((∃ rest, (m68k_set_irq2 env L m).trace = m.trace ++ Event.irq_ack L :: rest)
          ↔ m.regs.intmask < L)
      ∧ (m.regs.intmask < L →
          m68k_set_irq2 env L m = m68ki_exception_interrupt env L
            { m with regs := { m.regs with intLevel := L } })
      ∧ (¬ m.regs.intmask < L →
          m68k_set_irq2 env L m = { m with regs := { m.regs with intLevel := L } }) := by
    intro L hL hedge
    have e : toInt32 (L : Int) = L := toInt32_of_range _ (by omega) (by omega)
    have e2 : L % 4294967296 = L := Nat.mod_eq_of_lt (by omega)
    have h := main L (by
      rcases hedge with h1 | h1
      · left
        rw [e]
        exact_mod_cast h1
      · exact Or.inr h1)
    rw [e, e2] at h
    exact h
  refine ⟨small, fun L hedge => ⟨fun h => toInt32_of_range _ (by omega) (by omega), ?_,
    main L hedge⟩, fun h5 => ⟨?_, ?_⟩⟩
  · intro h1 h2
    unfold toInt32 toUInt32
    split_ifs <;> omega
  · exact (small 3 (by decide) (Or.inl (by decide))).2.2.2 (by rw [h5]; decide)
  · exact (small 6 (by decide) (Or.inl (by decide))).2.1.2 (by rw [h5]; decide)

/-- C2 amended, at the example machine (mask 5, nothing latched): level 3
only latches, level 6 is latched, acknowledged and vectors through the
level-6 autovector. -/
theorem m68k_set_irq2_priority_mask_witness :
    demoMachine.regs.intmask = 5
    ∧ m68k_set_irq2 demoEnv 3 demoMachine
        = { demoMachine with regs := { demoMachine.regs with intLevel := 3 } }
    ∧ (∃ rest, (m68k_set_irq2 demoEnv 6 demoMachine).trace
        = demoMachine.trace ++ Event.irq_ack 6 :: rest)
    ∧ (m68k_set_irq2 demoEnv 6 demoMachine).regs.intLevel = ((6 : Nat) : Int)
    ∧ (m68k_set_irq2 demoEnv 6 demoMachine).regs.pc = 0x1234 :=
  ⟨by decide, ((m68k_set_irq2_priority_mask demoEnv demoMachine).2.2 (by decide)).1,
   ((m68k_set_irq2_priority_mask demoEnv demoMachine).2.2 (by decide)).2,
   ((m68k_set_irq2_priority_mask demoEnv demoMachine).1 6 (by decide) (Or.inl (by decide))).1,
   by decide⟩

/-- C3 as stated fails: on the example machine with level 7 already latched
and the interrupt mask at 5, resolving level 7 again calls the acknowledge
callback and pushes a stack frame: the exception is delivered a second time. -/
theorem m68k_set_irq2_level7_retriggers_below_mask :
    demoLatched7.regs.intLevel = 7 ∧ demoLatched7.regs.intmask = 5
    ∧ (m68k_set_irq2 demoEnv 7 demoLatched7).trace
        = demoLatched7.trace ++ [Event.irq_ack 7, Event.read_32 124, Event.read_32 60,
            Event.write_32 16380 8192, Event.write_16 16378 1280]
    ∧ (m68k_set_irq2 demoEnv 7 demoLatched7).regs.intmask = 7 := by
  decide

/-- C3, amended: resolving level 7 when the latched level is not 7 calls
`m68ki_exception_interrupt(7)` whatever the interrupt mask is. Resolving level
7 while the latched level is still 7 goes through the mask comparison like
any other level: the acknowledge callback is called if and only if the mask
is below 7, and nothing changes when the mask is 7 or more. Right after a
level-7 exception was delivered the mask is 7, so an immediate second level 7
changes nothing. -/
theorem m68k_set_irq2_level7_edge (env : Env) (m : Machine) :
    (m.regs.intLevel ≠ 7 →
      m68k_set_irq2 env 7 m = m68ki_exception_interrupt env 7
          { m with regs := { m.regs with intLevel := 7 } }
      ∧ ∃ rest, (m68k_set_irq2 env 7 m).trace = m.trace ++ Event.irq_ack 7 :: rest)
    ∧ (m.regs.intLevel = 7 →
        ((∃ rest, (m68k_set_irq2 env 7 m).trace = m.trace ++ Event.irq_ack 7 :: rest)
          ↔ m.regs.intmask < 7)
        ∧ (7 ≤ m.regs.intmask → m68k_set_irq2 env 7 m = m))
    ∧ (m.regs.intLevel ≠ 7 → Delivers env 7 →
        (m68k_set_irq2 env 7 m).regs.intmask = 7
        ∧ m68k_set_irq2 env 7 (m68k_set_irq2 env 7 m) = m68k_set_irq2 env 7 m) := by
  have hlatch : ({ m with regs := { m.regs with intLevel := toInt32 ((7 : Nat) : Int) } } : Machine)
      = { m with regs := { m.regs with intLevel := 7 } } := by rw [toInt32_seven]
  have hedge : m.regs.intLevel ≠ 7 →
      m68k_set_irq2 env 7 m = m68ki_exception_interrupt env 7
        { m with regs := { m.regs with intLevel := 7 } } := by
    intro h
    rw [set_irq2_edge env 7 m ⟨h, toInt32_seven⟩, hlatch]
  have hrep : ∀ x : Machine, x.regs.intLevel = 7 → 7 ≤ x.regs.intmask →
      m68k_set_irq2 env 7 x = x := by
    intro x hx hmask
    have h2 := set_irq2_masked env 7 x (not_edge_of 7 x (Or.inr hx))
    rw [toInt32_seven] at h2
    rw [h2 (by omega), latch_same x hx]
  refine ⟨fun h => ⟨hedge h, ?_⟩, fun h => ⟨?_, hrep m h⟩, fun h hdel => ?_⟩
  · rw [hedge h]
    obtain ⟨rest, hr⟩ := exception_interrupt_trace env 7
      { m with regs := { m.regs with intLevel := 7 } }
    rw [toInt32_seven] at hr
    exact ⟨rest, hr⟩
  · have h2 := set_irq2_ack_iff env 7 m (not_edge_of 7 m (Or.inr h))
    rw [toInt32_seven] at h2
    exact h2
  · have hmask : (m68k_set_irq2 env 7 m).regs.intmask = 7 := by
      rw [hedge h, exception_interrupt_delivers env 7 _ hdel, deliver_intmask, toInt32_seven]
    have hlev : (m68k_set_irq2 env 7 m).regs.intLevel = 7 := by
      rw [hedge h, exception_interrupt_intLevel]
    exact ⟨hmask, hrep _ hlev (by omega)⟩

/-- C3 amended, at the example machine: the first level 7 (mask 5, level 0
latched) is acknowledged and raises the mask to 7, and a second level 7 right
after it changes nothing. -/
theorem m68k_set_irq2_level7_edge_witness :
    demoMachine.regs.intLevel ≠ 7 ∧ Delivers demoEnv 7
    ∧ (∃ rest, (m68k_set_irq2 demoEnv 7 demoMachine).trace
        = demoMachine.trace ++ Event.irq_ack 7 :: rest)
    ∧ (m68k_set_irq2 demoEnv 7 demoMachine).regs.intmask = 7
    ∧ m68k_set_irq2 demoEnv 7 (m68k_set_irq2 demoEnv 7 demoMachine)
        = m68k_set_irq2 demoEnv 7 demoMachine :=
  ⟨by decide, by decide,
   ((m68k_set_irq2_level7_edge demoEnv demoMachine).1 (by decide)).2,
   ((m68k_set_irq2_level7_edge demoEnv demoMachine).2.2 (by decide) (by decide)).1,
   ((m68k_set_irq2_level7_edge demoEnv demoMachine).2.2 (by decide) (by decide)).2⟩


/-- C4: the exception stack frame. Whenever `m68ki_exception_interrupt`
delivers (the acknowledge result is a sentinel or at most 255), the stack
pointer afterwards is the one before minus 6 modulo `2^32`; in the memory it
leaves, the long at `sp+2` is the program counter before delivery and the
word at `sp` is the status register packed before supervisor mode was forced
(registers taken as 32-bit and 16-bit values); the last two bus calls are the
long write followed by the word write. -/
theorem m68ki_exception_interrupt_stack_frame (env : Env) (L : Nat) (m : Machine)
    (hdel : Delivers env L) :
    (((m68ki_exception_interrupt env L m).regs.regs 15 : Nat) : Int)
        = ((m.regs.regs 15 : Int) - 6) % 4294967296
    ∧ (m68k_read_memory_32 ((m68ki_exception_interrupt env L m).regs.regs 15 + 2)
          (m68ki_exception_interrupt env L m)).1 = m.regs.pc % 4294967296
    ∧ m68k_read_memory_16 ((m68ki_exception_interrupt env L m).regs.regs 15)
          (m68ki_exception_interrupt env L m)
        = env.packSR { m.regs with stopped := 0 } % 65536
    ∧ ∃ pre, (m68ki_exception_interrupt env L m).trace
        = pre ++ [Event.write_32 (toUInt32 ((m.regs.regs 15 : Int) - 4)) m.regs.pc,
                  Event.write_16 (toUInt32 ((m.regs.regs 15 : Int) - 6))
                    (env.packSR { m.regs with stopped := 0 } % 65536)] := by
  rw [exception_interrupt_delivers env L m hdel, deliver_eq]
  refine ⟨?_, ?_, ?_, ?_⟩
  · simp only [Function.update_same]
    unfold toUInt32
    omega
  · simp only [m68k_read_memory_32, Function.update_same]
    exact readLong_after_frame _ _ _ _
  · simp only [m68k_read_memory_16, Function.update_same]
    rw [readWord_after_frame, Nat.mod_mod]
  · exact ⟨_, (List.append_assoc _ _ _).symm⟩

/-- C4 at the example machine for level 6: the stack pointer goes from
`0x4000` to `0x3FFA`, the long at `0x3FFC` is the old program counter `0x2000`
and the word at `0x3FFA` is the old status register `0x0500`. -/
theorem m68ki_exception_interrupt_stack_frame_witness :
    Delivers demoEnv 6
    ∧ (m68ki_exception_interrupt demoEnv 6 demoMachine).regs.regs 15 = 0x3FFA
    ∧ (m68k_read_memory_32 ((m68ki_exception_interrupt demoEnv 6 demoMachine).regs.regs 15 + 2)
          (m68ki_exception_interrupt demoEnv 6 demoMachine)).1 = demoMachine.regs.pc % 4294967296
    ∧ m68k_read_memory_16 0x3FFA (m68ki_exception_interrupt demoEnv 6 demoMachine) = 0x0500 :=
  ⟨by decide, by decide,
   (m68ki_exception_interrupt_stack_frame demoEnv 6 demoMachine (by decide)).2.1, by decide⟩

/-- C5: vector resolution and target address. With acknowledge result `a`,
`m68ki_exception_interrupt` reads the vector entry of vector `24+L` when `a`
is `0xFFFFFFFF`, of vector 24 when `a` is `0xFFFFFFFE` and of vector `a` when
`a <= 255` (the first bus call after the acknowledge, at `vector << 2`); the
program counter afterwards is the long at `vector*4` in the memory before the
call when that long is not zero, and the long at `0x3C` otherwise. -/
theorem m68ki_exception_interrupt_vector (env : Env) (L : Nat) (m : Machine) :
    (Delivers env L →
      (m68ki_exception_interrupt env L m).regs.pc
        = (if readLong m.mem (resolvedVector env L * 4) ≠ 0
            then readLong m.mem (resolvedVector env L * 4) else readLong m.mem 0x3C)
      ∧ ∃ rest, (m68ki_exception_interrupt env L m).trace
          = m.trace ++ Event.irq_ack (toInt32 L)
              :: Event.read_32 (resolvedVector env L * 4 % 4294967296) :: rest)
    ∧ (ackVector env L = 0xFFFFFFFF → resolvedVector env L = (24 + L) % 4294967296)
    ∧ (ackVector env L = 0xFFFFFFFE → resolvedVector env L = 24)
    ∧ (ackVector env L ≤ 255 → resolvedVector env L = ackVector env L)
    ∧ (ackVector env L = 0xFFFFFFFF →
        (m68ki_exception_interrupt env L m).regs.pc
          = (if readLong m.mem ((24 + L) * 4) ≠ 0
              then readLong m.mem ((24 + L) * 4) else readLong m.mem 0x3C)) := by
  have hpc : Delivers env L →
      (m68ki_exception_interrupt env L m).regs.pc
        = (if readLong m.mem (resolvedVector env L * 4) ≠ 0
            then readLong m.mem (resolvedVector env L * 4) else readLong m.mem 0x3C) := by
    intro hdel
    rw [exception_interrupt_delivers env L m hdel, deliver_eq]
    simp only [vectorTarget, EXCEPTION_UNINITIALIZED_INTERRUPT]
    rw [readLong_congr m.mem (resolvedVector env L * 4 % 4294967296) (resolvedVector env L * 4)
      (Nat.mod_mod _ _)]
    by_cases h0 : readLong m.mem (resolvedVector env L * 4) = 0
    · rw [if_pos h0, if_neg (not_not.mpr h0)]
    · rw [if_neg h0, if_pos h0]
  have hauto : ackVector env L = 0xFFFFFFFF → resolvedVector env L = (24 + L) % 4294967296 := by
    intro h
    have h' : ackVector env L = M68K_INT_ACK_AUTOVECTOR := h
    unfold resolvedVector
    rw [if_pos h']
    rfl
  refine ⟨fun hdel => ⟨hpc hdel, ?_⟩, hauto, ?_, ?_, ?_⟩
  · rw [exception_interrupt_delivers env L m hdel, deliver_eq]
    unfold vectorReads
    split_ifs <;> exact ⟨_, List.append_assoc _ _ _⟩
  · intro h
    unfold resolvedVector
    have h' : ackVector env L = M68K_INT_ACK_SPURIOUS := h
    have h'' : ¬ ackVector env L = M68K_INT_ACK_AUTOVECTOR := by rw [h]; decide
    rw [if_neg h'', if_pos h']
    rfl
  · intro h
    unfold resolvedVector
    have h' : ¬ ackVector env L = M68K_INT_ACK_AUTOVECTOR := by
      unfold M68K_INT_ACK_AUTOVECTOR; omega
    have h'' : ¬ ackVector env L = M68K_INT_ACK_SPURIOUS := by
      unfold M68K_INT_ACK_SPURIOUS; omega
    rw [if_neg h', if_neg h'']
  · intro h
    rw [hpc (Or.inl h), hauto h,
      readLong_congr m.mem ((24 + L) % 4294967296 * 4) ((24 + L) * 4) (by omega)]

/-- C5 at the example machine: level 6 autovectors to vector 30, whose entry
`0x78` holds `0x1234`; the level-7 entry `0x7C` holds 0, so level 7 ends at
the long at `0x3C`. -/
theorem m68ki_exception_interrupt_vector_witness :
    ackVector demoEnv 6 = 0xFFFFFFFF
    ∧ resolvedVector demoEnv 6 = 30
    ∧ (m68ki_exception_interrupt demoEnv 6 demoMachine).regs.pc
        = (if readLong demoMachine.mem ((24 + 6) * 4) ≠ 0
            then readLong demoMachine.mem ((24 + 6) * 4) else readLong demoMachine.mem 0x3C)
    ∧ (m68ki_exception_interrupt demoEnv 6 demoMachine).regs.pc = 0x1234
    ∧ (m68ki_exception_interrupt demoEnv 7 demoMachine).regs.pc = readLong demoMachine.mem 0x3C :=
  ⟨by decide, by decide,
   (m68ki_exception_interrupt_vector demoEnv 6 demoMachine).2.2.2.2 (by decide),
   by decide, by decide⟩

/-- C6: a malformed acknowledge is a no-op. When the acknowledge result is
greater than 255 and neither sentinel, `m68ki_exception_interrupt` leaves the
state as it was except that the stopped flag is cleared and the acknowledge
call is on record: no bus read or write follows it, and memory, the program
counter, the 16 general registers, the privilege bit, the interrupt mask, the
stored status register and both cycle counters are unchanged. -/
theorem m68ki_exception_interrupt_malformed_ack (env : Env) (L : Nat) (m : Machine)
    (h1 : ackVector env L ≠ M68K_INT_ACK_AUTOVECTOR)
    (h2 : ackVector env L ≠ M68K_INT_ACK_SPURIOUS)
    (h3 : ackVector env L > 255) :
    m68ki_exception_interrupt env L m
        = { m with regs := { m.regs with stopped := 0 },
                   trace := m.trace ++ [Event.irq_ack (toInt32 L)] }
    ∧ (m68ki_exception_interrupt env L m).mem = m.mem
    ∧ (m68ki_exception_interrupt env L m).regs.pc = m.regs.pc
    ∧ (m68ki_exception_interrupt env L m).regs.regs = m.regs.regs
    ∧ (m68ki_exception_interrupt env L m).regs.s = m.regs.s
    ∧ (m68ki_exception_interrupt env L m).regs.intmask = m.regs.intmask
    ∧ (m68ki_exception_interrupt env L m).regs.sr = m.regs.sr
    ∧ (m68ki_exception_interrupt env L m).regs.remainingCycles = m.regs.remainingCycles
    ∧ (m68ki_exception_interrupt env L m).regs.interruptCycles = m.regs.interruptCycles
    ∧ (m68ki_exception_interrupt env L m).regs.stopped = 0 := by
  rw [exception_interrupt_malformed env L m h1 h2 h3]
  exact ⟨rfl, rfl, rfl, rfl, rfl, rfl, rfl, rfl, rfl, rfl⟩

/-- C6 for an acknowledge callback that answers 256, on the stopped example machine. -/
theorem m68ki_exception_interrupt_malformed_ack_witness :
    ackVector { demoEnv with irq_ack_handler := fun _ => 256 } 6 = 256
    ∧ (m68ki_exception_interrupt { demoEnv with irq_ack_handler := fun _ => 256 } 6
        demoStopped).trace = [Event.irq_ack 6]
    ∧ (m68ki_exception_interrupt { demoEnv with irq_ack_handler := fun _ => 256 } 6
        demoStopped).regs.pc = demoStopped.regs.pc
    ∧ (m68ki_exception_interrupt { demoEnv with irq_ack_handler := fun _ => 256 } 6
        demoStopped).regs.stopped = 0 :=
  ⟨by decide, by decide,
   (m68ki_exception_interrupt_malformed_ack { demoEnv with irq_ack_handler := fun _ => 256 } 6
      demoStopped (by decide) (by decide) (by decide)).2.2.1,
   by decide⟩

/-- C7: illegal-opcode classification. For every opcode word `w`,
`IllegalOpcode(w)` raises one exception and returns 4; the vector is `0x0B`
when bits 15..12 of `w` are `0xF`, `0x0A` when they are `0xA` and `0x04`
otherwise. So `0xF123` raises `0x0B`, `0xA456` raises `0x0A` and `0x4AFC`
raises `0x04`. -/
theorem IllegalOpcode_classification (env : Env) (m : Machine) :
    (∀ w : Nat, IllegalOpcode env w m =
      (env.Exception
        (if w / 4096 % 16 = 15 then 0x0B else if w / 4096 % 16 = 10 then 0x0A else 0x04)
        0 env.M68000_EXC_SRC_CPU m, 4))
    ∧ IllegalOpcode env 0xF123 m = (env.Exception 0x0B 0 env.M68000_EXC_SRC_CPU m, 4)
    ∧ IllegalOpcode env 0xA456 m = (env.Exception 0x0A 0 env.M68000_EXC_SRC_CPU m, 4)
    ∧ IllegalOpcode env 0x4AFC m = (env.Exception 0x04 0 env.M68000_EXC_SRC_CPU m, 4) := by
  have main : ∀ w : Nat, IllegalOpcode env w m =
      (env.Exception
        (if w / 4096 % 16 = 15 then 0x0B else if w / 4096 % 16 = 10 then 0x0A else 0x04)
        0 env.M68000_EXC_SRC_CPU m, 4) := by
    intro w
    unfold IllegalOpcode
    rw [and_F000]
    have h := Nat.mod_lt (w / 4096) (by norm_num : 16 > 0)
    by_cases h15 : w / 4096 % 16 = 15
    · rw [if_pos (by omega), if_pos h15]
    · rw [if_neg (by omega), if_neg h15]
      by_cases h10 : w / 4096 % 16 = 10
      · rw [if_pos (by omega), if_pos h10]
      · rw [if_neg (by omega), if_neg h10]
  exact ⟨main, main 0xF123, main 0xA456, main 0x4AFC⟩

/-- C8: the reset sequence. Whenever `m68k_pulse_reset()` returns (the table
is already built, or the first-call build does not abort), the stack pointer,
also as `m68k_get_reg` reports `M68K_REG_SP`, is the long at address 0 and the
program counter is the long at address 4 of the memory before the call; the
privilege bit is 1, the interrupt mask 7, the stopped flag and the special
flags 0, and memory is unchanged. -/
theorem m68k_pulse_reset_sequence (env : Env) (m : Machine)
    (h : m.emulation_initialized ≠ 0 ∨ (BuildCPUFunctionTable env m.cpuFunctionTable).isSome) :
    ∃ m', m68k_pulse_reset env m = some m'
      ∧ m'.regs.regs 15 = readLong m.mem 0
      ∧ (m68k_get_reg env M68K_REG_SP m').1 = readLong m.mem 0
      ∧ m'.regs.pc = readLong m.mem 4
      ∧ (m68k_get_reg env M68K_REG_PC m').1 = readLong m.mem 4
      ∧ m'.regs.s = 1 ∧ m'.regs.intmask = 7 ∧ m'.regs.stopped = 0 ∧ m'.regs.spcflags = 0
      ∧ m'.mem = m.mem
      ∧ (readLong m.mem 0 = 0x00001000 → readLong m.mem 4 = 0x00002000 →
          m'.regs.regs 15 = 0x00001000 ∧ m'.regs.pc = 0x00002000) := by
  have hget : ∀ x : Machine, (m68k_get_reg env M68K_REG_SP x).1 = x.regs.regs 15
      ∧ (m68k_get_reg env M68K_REG_PC x).1 = x.regs.pc := by
    intro x
    simp [m68k_get_reg, M68K_REG_SP, M68K_REG_PC, M68K_REG_A7, M68K_REG_SR]
  have hregs : ∀ x : Machine, x.mem = m.mem →
      (m68k_pulse_reset_registers env x).regs.regs 15 = readLong m.mem 0
      ∧ (m68k_get_reg env M68K_REG_SP (m68k_pulse_reset_registers env x)).1 = readLong m.mem 0
      ∧ (m68k_pulse_reset_registers env x).regs.pc = readLong m.mem 4
      ∧ (m68k_get_reg env M68K_REG_PC (m68k_pulse_reset_registers env x)).1 = readLong m.mem 4
      ∧ (m68k_pulse_reset_registers env x).regs.s = 1
      ∧ (m68k_pulse_reset_registers env x).regs.intmask = 7
      ∧ (m68k_pulse_reset_registers env x).regs.stopped = 0
      ∧ (m68k_pulse_reset_registers env x).regs.spcflags = 0
      ∧ (m68k_pulse_reset_registers env x).mem = m.mem
      ∧ (readLong m.mem 0 = 0x00001000 → readLong m.mem 4 = 0x00002000 →
          (m68k_pulse_reset_registers env x).regs.regs 15 = 0x00001000
          ∧ (m68k_pulse_reset_registers env x).regs.pc = 0x00002000) := by
    intro x hx
    rw [(hget _).1, (hget _).2]
    simp only [m68k_pulse_reset_registers, refill_prefetch, m68k_setpc, m68k_read_memory_32,
      set_areg7, Function.update_same, hx, true_and]
    exact fun h0 h4 => ⟨h0, h4⟩
  by_cases hi : m.emulation_initialized = 0
  · have hb : (BuildCPUFunctionTable env m.cpuFunctionTable).isSome := by
      rcases h with h | h
      · exact absurd hi h
      · exact h
    obtain ⟨t, ht⟩ := Option.isSome_iff_exists.mp hb
    refine ⟨m68k_pulse_reset_registers env
      { m with cpuFunctionTable := t, emulation_initialized := 1 }, ?_, hregs _ rfl⟩
    unfold m68k_pulse_reset
    rw [if_pos hi, ht]
    rfl
  · refine ⟨m68k_pulse_reset_registers env m, ?_, hregs _ rfl⟩
    unfold m68k_pulse_reset
    rw [if_neg hi]

/-- C8 at the example machine, whose memory holds `0x00001000` at address 0
and `0x00002000` at address 4: once with the table already built, once as the
first call, whose table build does not abort. -/
theorem m68k_pulse_reset_sequence_witness :
    demoMachine.emulation_initialized ≠ 0
    ∧ readLong demoMachine.mem 0 = 0x00001000 ∧ readLong demoMachine.mem 4 = 0x00002000
    ∧ (∃ m', m68k_pulse_reset demoEnv demoMachine = some m'
        ∧ m'.regs.regs 15 = 0x00001000 ∧ m'.regs.pc = 0x00002000)
    ∧ (∃ m', m68k_pulse_reset demoEnv { demoMachine with emulation_initialized := 0 } = some m'
        ∧ m'.regs.regs 15 = 0x00001000 ∧ m'.regs.pc = 0x00002000) := by
  obtain ⟨m', h1, _, _, _, _, _, _, _, _, _, h2⟩ :=
    m68k_pulse_reset_sequence demoEnv demoMachine (Or.inl (by decide))
  have hbuild : (BuildCPUFunctionTable demoEnv demoMachine.cpuFunctionTable).isSome := by
    unfold BuildCPUFunctionTable
    rw [redirectOpcodes_all_illegal demoEnv (fun _ => rfl)]
    rfl
  obtain ⟨m'', k1, _, _, _, _, _, _, _, _, _, k2⟩ :=
    m68k_pulse_reset_sequence demoEnv { demoMachine with emulation_initialized := 0 }
      (Or.inr hbuild)
  exact ⟨by decide, by decide, by decide, ⟨m', h1, h2 (by decide) (by decide)⟩,
    ⟨m'', k1, k2 (by decide) (by decide)⟩⟩

/-- C9: cycle accounting. Let the multiplier be at least 1, the processor
running with the debugger flag clear, no request pending and no interrupt
cycles carried in, `N*m` within 32 bits, and let every call through the table
(with the hook before it) report a cost of at least 1 and leave the counters,
flags, multiplier and table alone. Then there is a `k >= 1` such that the
costs of the first `k` instructions of the stream sum to `S >= N*m` while
every shorter non-empty prefix sums to less: `m68k_execute(N)` has not
returned after fewer than `k` passes, and `S / m >= N`. If `S` and `N*m - S`
fit in 32 bits (no signed overflow in the counters), `m68k_execute(N)`
returns `S / m` after exactly those `k` dispatches, and afterwards
`m68k_cycles_run()` is `S / m` and `m68k_cycles_remaining()` is
`(N*m - S) / m`, with C's truncating division. -/
theorem m68k_execute_cycle_accounting (env : Env) (m : Machine) (N : Int)
    (hm : 1 ≤ m.m68k_clocks_mult)
    (hrun : m.regs.stopped = 0)
    (hdbg : m.regs.spcflags &&& env.SPCFLAG_DEBUGGER = 0)
    (hirq : m.checkForIRQToHandle = 0)
    (hint : m.regs.interruptCycles = 0)
    (hN : -2147483648 ≤ N * m.m68k_clocks_mult ∧ N * m.m68k_clocks_mult < 2147483648)
    (hh : ∀ x : Machine, x.cpuFunctionTable = m.cpuFunctionTable →
      ∃ x1 ret, m68k_execute_dispatch env x = some (x1, ret) ∧ 1 ≤ toInt32 ret
        ∧ CountersUntouched x x1) :
    ∃ (k : Nat) (mk : Machine) (S : Int),
      1 ≤ k
      ∧ instructionStream env k (m68k_execute_enter N m) = some (mk, S)
      ∧ N * m.m68k_clocks_mult ≤ S
      ∧ (∀ j mj Sj, 1 ≤ j → j < k →
          instructionStream env j (m68k_execute_enter N m) = some (mj, Sj) →
          Sj < N * m.m68k_clocks_mult)
      ∧ (∀ fuel, fuel < k → m68k_execute env fuel N m = none)
      ∧ N ≤ Int.tdiv S m.m68k_clocks_mult
      ∧ (S < 2147483648 → -2147483648 ≤ N * m.m68k_clocks_mult - S →
          (∀ fuel, k ≤ fuel →
            m68k_execute env fuel N m
              = some ((m68k_execute_leave mk).1, Int.tdiv S m.m68k_clocks_mult))
          ∧ m68k_cycles_run (m68k_execute_leave mk).1 = Int.tdiv S m.m68k_clocks_mult
          ∧ m68k_cycles_remaining (m68k_execute_leave mk).1
              = Int.tdiv (N * m.m68k_clocks_mult - S) m.m68k_clocks_mult) := by
  have hadj : toInt32 (N * m.m68k_clocks_mult) = N * m.m68k_clocks_mult :=
    toInt32_of_range _ hN.1 hN.2
  have hrem0 : (m68k_execute_enter N m).regs.remainingCycles = N * m.m68k_clocks_mult := by
    show toInt32 (toInt32 (N * m.m68k_clocks_mult) - m.regs.interruptCycles) = _
    rw [hint, hadj, sub_zero, hadj]
  have hexec : ∀ fuel, m68k_execute env fuel N m
      = m68k_execute_loop env fuel (m68k_execute_enter N m) := by
    intro fuel
    unfold m68k_execute
    exact if_neg (not_not.mpr hrun)
  obtain ⟨k, mk, S, hk, hS, hstream, hge, hmin, hnone, hki, hkm, hka, hfin⟩ :=
    loop_accounting env m.cpuFunctionTable hh (N * m.m68k_clocks_mult).toNat
      (m68k_execute_enter N m) rfl hirq hdbg (by rw [hrem0]; exact hN.2)
      (by rw [hrem0]; omega)
  rw [hrem0] at hge hmin hfin
  have hmult : mk.m68k_clocks_mult = m.m68k_clocks_mult := hkm
  have hdiv : N ≤ Int.tdiv S m.m68k_clocks_mult := by
    rw [Int.tdiv_eq_ediv (by omega) (by omega)]
    exact Int.le_ediv_of_mul_le (by omega) hge
  refine ⟨k, mk, S, hk, hstream, hge, hmin, ?_, hdiv, ?_⟩
  · intro fuel hf
    rw [hexec]
    exact hnone fuel hf
  · intro hS2 hov
    obtain ⟨hrk, hloop⟩ := hfin hov
    have hadjk : mk.adjustedCycles = N * m.m68k_clocks_mult := by
      rw [hka]
      exact hadj
    have hintk : mk.regs.interruptCycles = 0 := hki
    have hex : toInt32 (mk.adjustedCycles - mk.regs.remainingCycles) = S := by
      rw [hadjk, hrk]
      have : N * m.m68k_clocks_mult - (N * m.m68k_clocks_mult - S) = S := by ring
      rw [this]
      exact toInt32_of_range _ (by omega) hS2
    have hret : (m68k_execute_leave mk).2 = Int.tdiv S m.m68k_clocks_mult := by
      show Int.tdiv (toInt32 (mk.adjustedCycles - mk.regs.remainingCycles)) mk.m68k_clocks_mult
        = _
      rw [hex, hmult]
    have hleave : m68k_execute_leave mk
        = ((m68k_execute_leave mk).1, Int.tdiv S m.m68k_clocks_mult) :=
      Prod.ext rfl hret
    refine ⟨?_, ?_, ?_⟩
    · intro fuel hf
      rw [hexec, hloop fuel hf]
      exact congrArg some hleave
    · show Int.tdiv (toInt32 (mk.adjustedCycles - mk.regs.remainingCycles)) mk.m68k_clocks_mult
        = _
      rw [hex, hmult]
    · show Int.tdiv (toInt32 (mk.regs.remainingCycles - mk.regs.interruptCycles))
        mk.m68k_clocks_mult = _
      rw [hintk, sub_zero, hrk, hmult, toInt32_of_range _ hov (by omega)]

/-- C9 at the example machine: multiplier 2, budget 100, every handler
costing 4. The first 50 instructions cost 200 and the first 49 cost 196;
`m68k_execute(100)` returns 100 after 50 dispatches and not before, with
`m68k_cycles_run()` 100 and `m68k_cycles_remaining()` 0. -/
theorem m68k_execute_cycle_accounting_witness :
    (1 ≤ demoMachine.m68k_clocks_mult ∧ demoMachine.regs.stopped = 0
      ∧ demoMachine.regs.spcflags &&& demoEnv.SPCFLAG_DEBUGGER = 0
      ∧ demoMachine.checkForIRQToHandle = 0 ∧ demoMachine.regs.interruptCycles = 0)
    ∧ (∃ (k : Nat) (mk : Machine) (S : Int),
        1 ≤ k
        ∧ instructionStream demoEnv k (m68k_execute_enter 100 demoMachine) = some (mk, S)
        ∧ 100 * demoMachine.m68k_clocks_mult ≤ S
        ∧ (∀ fuel, fuel < k → m68k_execute demoEnv fuel 100 demoMachine = none)
        ∧ (100 : Int) ≤ Int.tdiv S demoMachine.m68k_clocks_mult)
    ∧ (instructionStream demoEnv 50 (m68k_execute_enter 100 demoMachine)).map Prod.snd = some 200
    ∧ (instructionStream demoEnv 49 (m68k_execute_enter 100 demoMachine)).map Prod.snd = some 196
    ∧ (m68k_execute demoEnv 50 100 demoMachine).map Prod.snd = some 100
    ∧ (m68k_execute demoEnv 50 100 demoMachine).map (fun r => r.1.trace.length) = some 50
    ∧ (m68k_execute demoEnv 49 100 demoMachine).map Prod.snd = none
    ∧ (m68k_execute demoEnv 50 100 demoMachine).map (fun r => m68k_cycles_run r.1) = some 100
    ∧ (m68k_execute demoEnv 50 100 demoMachine).map (fun r => m68k_cycles_remaining r.1)
        = some 0 := by
  refine ⟨by decide, ?_, by decide, by decide, by decide, by decide, ?_, by decide, by decide⟩
  · obtain ⟨k, mk, S, h1, h2, h3, _, h5, h6, _⟩ :=
      m68k_execute_cycle_accounting demoEnv demoMachine 100 (by decide) (by decide) (by decide)
        (by decide) (by decide) (by decide) demo_handlers
    exact ⟨k, mk, S, h1, h2, h3, h5, h6⟩
  · decide

/-- C10, what the code does instead: whenever `m68k_execute` returns, the
interrupt-cycle accumulator is 0, so the next `m68k_execute(N2)` enters its
loop with the full scaled budget `N2*m`: interrupt cycles billed inside a
quantum are not discharged against the next one. -/
theorem m68k_execute_leaves_no_interrupt_cycles (env : Env) (fuel : Nat) (N1 N2 : Int)
    (m m1 : Machine) (r : Int) (h : m68k_execute env fuel N1 m = some (m1, r)) :
    m1.regs.interruptCycles = 0
    ∧ (m68k_execute_enter N2 m1).regs.remainingCycles = toInt32 (N2 * m1.m68k_clocks_mult) := by
  have h0 : m1.regs.interruptCycles = 0 := by
    unfold m68k_execute at h
    by_cases hs : m.regs.stopped ≠ 0
    · rw [if_pos hs] at h
      simp only [Option.some.injEq, Prod.mk.injEq] at h
      rw [← h.1]
      rfl
    · rw [if_neg hs] at h
      exact execute_loop_interruptCycles env fuel _ m1 r h
  refine ⟨h0, ?_⟩
  show toInt32 (toInt32 (N2 * m1.m68k_clocks_mult) - m1.regs.interruptCycles) = _
  rw [h0, sub_zero, toInt32_idem]


/-- C10 at the example machine with a level-6 request pending: the request
is delivered inside `m68k_execute(1)` (acknowledge, vector read, stack frame,
then the dispatch), the accumulator is 0 on return and `m68k_execute(10)`
would enter its loop with 20 cycles, not `20 - 56`. The same delivery made by
`m68k_set_irq` on the stopped machine leaves 56 in the accumulator and the
next loop is entered with `20 - 56`. -/
theorem m68k_execute_leaves_no_interrupt_cycles_witness :
    m68k_execute demoEnv 1 1 demoPending = some (demoAfterDelivery, 2)
    ∧ demoAfterDelivery.trace = [Event.irq_ack 6, Event.read_32 120, Event.write_32 16380 8192,
          Event.write_16 16378 1280, Event.dispatch 0]
    ∧ demoAfterDelivery.regs.interruptCycles = 0
    ∧ (m68k_execute_enter 10 demoAfterDelivery).regs.remainingCycles = 20
    ∧ (m68k_set_irq demoEnv 6 demoStopped).regs.interruptCycles = 56
    ∧ (m68k_execute_enter 10 (m68k_set_irq demoEnv 6 demoStopped)).regs.remainingCycles
        = 20 - 56 :=
  ⟨rfl, by decide,
   (m68k_execute_leaves_no_interrupt_cycles demoEnv 1 1 10 demoPending demoAfterDelivery 2
      rfl).1,
   by decide, by decide, by decide⟩

/-! ## Further lemmas -/

theorem exception_interrupt_statics (env : Env) (L : Nat) (m : Machine) :
    (m68ki_exception_interrupt env L m).m68k_clocks_mult = m.m68k_clocks_mult
    ∧ (m68ki_exception_interrupt env L m).adjustedCycles = m.adjustedCycles
    ∧ (m68ki_exception_interrupt env L m).checkForIRQToHandle = m.checkForIRQToHandle
    ∧ (m68ki_exception_interrupt env L m).IRQLevelToHandle = m.IRQLevelToHandle
    ∧ (m68ki_exception_interrupt env L m).cpuFunctionTable = m.cpuFunctionTable
    ∧ (m68ki_exception_interrupt env L m).regs.remainingCycles = m.regs.remainingCycles
    ∧ (m68ki_exception_interrupt env L m).regs.spcflags = m.regs.spcflags := by
  unfold m68ki_exception_interrupt
  split_ifs
  · rw [deliver_eq]; exact ⟨rfl, rfl, rfl, rfl, rfl, rfl, rfl⟩
  · rw [deliver_eq]; exact ⟨rfl, rfl, rfl, rfl, rfl, rfl, rfl⟩
  · exact ⟨rfl, rfl, rfl, rfl, rfl, rfl, rfl⟩
  · rw [deliver_eq]; exact ⟨rfl, rfl, rfl, rfl, rfl, rfl, rfl⟩

theorem check_interrupts_statics (env : Env) (m : Machine) :
    (m68ki_check_interrupts env m).m68k_clocks_mult = m.m68k_clocks_mult
    ∧ (m68ki_check_interrupts env m).adjustedCycles = m.adjustedCycles
    ∧ (m68ki_check_interrupts env m).checkForIRQToHandle = m.checkForIRQToHandle
    ∧ (m68ki_check_interrupts env m).IRQLevelToHandle = m.IRQLevelToHandle
    ∧ (m68ki_check_interrupts env m).cpuFunctionTable = m.cpuFunctionTable
    ∧ (m68ki_check_interrupts env m).regs.remainingCycles = m.regs.remainingCycles
    ∧ (m68ki_check_interrupts env m).regs.spcflags = m.regs.spcflags := by
  unfold m68ki_check_interrupts
  split_ifs
  · exact exception_interrupt_statics env _ m
  · exact ⟨rfl, rfl, rfl, rfl, rfl, rfl, rfl⟩

theorem set_irq2_statics (env : Env) (L : Nat) (m : Machine) :
    (m68k_set_irq2 env L m).m68k_clocks_mult = m.m68k_clocks_mult
    ∧ (m68k_set_irq2 env L m).adjustedCycles = m.adjustedCycles
    ∧ (m68k_set_irq2 env L m).checkForIRQToHandle = m.checkForIRQToHandle
    ∧ (m68k_set_irq2 env L m).IRQLevelToHandle = m.IRQLevelToHandle
    ∧ (m68k_set_irq2 env L m).cpuFunctionTable = m.cpuFunctionTable
    ∧ (m68k_set_irq2 env L m).regs.remainingCycles = m.regs.remainingCycles
    ∧ (m68k_set_irq2 env L m).regs.spcflags = m.regs.spcflags := by
  by_cases h : m.regs.intLevel ≠ 7 ∧ toInt32 (L : Int) = 7
  · rw [set_irq2_edge env L m h]
    exact exception_interrupt_statics env 7 { m with regs := { m.regs with intLevel := toInt32 L } }
  · rw [set_irq2_level env L m h]
    exact check_interrupts_statics env { m with regs := { m.regs with intLevel := toInt32 L } }

theorem fillIllegal_lt : ∀ (count : Nat) (t : Nat → cpuop_func) (i : Nat), i < count →
    fillIllegal count t i = cpuop_func.IllegalOpcode := by
  intro count
  induction count with
  | zero => intro t i h; omega
  | succ n ih =>
    intro t i h
    show Function.update (fillIllegal n t) n cpuop_func.IllegalOpcode i = _
    by_cases hi : i = n
    · rw [hi, Function.update_same]
    · rw [Function.update_noteq hi]
      exact ih t i (by omega)

theorem installedRows_nonnull (tbl : List cputbl) (d : cputbl) (h : d ∈ installedRows tbl) :
    d.handler ≠ cpuop_func.null := by
  have := List.mem_takeWhile_imp h
  exact of_decide_eq_true this

theorem installedRows_cons (d : cputbl) (ds : List cputbl) (h : d.handler ≠ cpuop_func.null) :
    installedRows (d :: ds) = d :: installedRows ds := by
  unfold installedRows
  rw [List.takeWhile_cons]
  simp [h]

theorem installDescriptors_cons (d : cputbl) (ds : List cputbl) (t : Nat → cpuop_func)
    (h : d.handler ≠ cpuop_func.null) :
    installDescriptors (d :: ds) t
      = installDescriptors ds (Function.update t d.opcode d.handler) := by
  rw [installDescriptors, if_neg h]

theorem installDescriptors_stop (d : cputbl) (ds : List cputbl) (t : Nat → cpuop_func)
    (h : d.handler = cpuop_func.null) :
    installDescriptors (d :: ds) t = t := by
  rw [installDescriptors, if_pos h]

theorem installDescriptors_slot : ∀ (tbl : List cputbl) (t : Nat → cpuop_func) (i : Nat),
    installDescriptors tbl t i = t i
    ∨ ∃ d ∈ installedRows tbl, d.opcode = i ∧ d.handler = installDescriptors tbl t i := by
  intro tbl
  induction tbl with
  | nil => intro t i; exact Or.inl rfl
  | cons d ds ih =>
    intro t i
    by_cases h : d.handler = cpuop_func.null
    · rw [installDescriptors_stop d ds t h]
      exact Or.inl rfl
    · rw [installDescriptors_cons d ds t h, installedRows_cons d ds h]
      rcases ih (Function.update t d.opcode d.handler) i with h1 | ⟨e, he, h2⟩
      · by_cases hi : i = d.opcode
        · right
          refine ⟨d, List.mem_cons_self _ _, hi.symm, ?_⟩
          rw [h1, hi, Function.update_same]
        · left
          rw [h1, Function.update_noteq hi]
      · exact Or.inr ⟨e, List.mem_cons_of_mem _ he, h2⟩

theorem redirect_pass (env : Env) (n o : Nat) (t : Nat → cpuop_func)
    (h : ¬ QualifyingRedirect env o) :
    redirectOpcodes env (n + 1) o t = redirectOpcodes env n (o + 1) t := by
  by_cases hs : (env.table68k o).mnemo = env.i_ILLG ∨ (env.table68k o).clev > 0
  · rw [redirectOpcodes, if_pos hs]
  · have hh : ¬ (env.table68k o).handler ≠ -1 := by
      intro hh
      apply h
      refine ⟨fun e => hs (Or.inl e), ?_, hh⟩
      by_contra hc
      exact hs (Or.inr (Nat.pos_of_ne_zero hc))
    rw [redirectOpcodes, if_neg hs, if_neg hh]

theorem qualifying_not_skipped (env : Env) (o : Nat) (h : QualifyingRedirect env o) :
    ¬ ((env.table68k o).mnemo = env.i_ILLG ∨ (env.table68k o).clev > 0) := by
  rintro (e | e)
  · exact h.1 e
  · have := h.2.1
    omega

theorem redirect_abort (env : Env) (n o : Nat) (t : Nat → cpuop_func)
    (h : QualifyingRedirect env o)
    (hi : t (env.table68k o).handler.toNat = cpuop_func.IllegalOpcode) :
    redirectOpcodes env (n + 1) o t = none := by
  rw [redirectOpcodes, if_neg (qualifying_not_skipped env o h), if_pos h.2.2, if_pos hi]

theorem redirect_copy (env : Env) (n o : Nat) (t : Nat → cpuop_func)
    (h : QualifyingRedirect env o)
    (hi : t (env.table68k o).handler.toNat ≠ cpuop_func.IllegalOpcode) :
    redirectOpcodes env (n + 1) o t
      = redirectOpcodes env n (o + 1)
          (Function.update t o (t (env.table68k o).handler.toNat)) := by
  rw [redirectOpcodes, if_neg (qualifying_not_skipped env o h), if_pos h.2.2, if_neg hi]

/-- What the third loop leaves when it runs to the end: slots it does not
visit, and slots of opcodes that do not qualify, keep their content; the slot
of a qualifying opcode is not `IllegalOpcode`, is the content slot `h` had
when the opcode was visited, and is the final content of slot `h` when `h`
does not qualify. -/
theorem redirect_spec (env : Env) : ∀ (n start : Nat) (t t2 : Nat → cpuop_func),
    redirectOpcodes env n start t = some t2 →
    (∀ i, (i < start ∨ start + n ≤ i ∨ ¬ QualifyingRedirect env i) → t2 i = t i)
    ∧ (∀ o, start ≤ o → o < start + n → QualifyingRedirect env o →
        t2 o ≠ cpuop_func.IllegalOpcode
        ∧ (¬ QualifyingRedirect env (env.table68k o).handler.toNat →
            t2 o = t2 (env.table68k o).handler.toNat)
        ∧ ∃ tv, redirectOpcodes env (o - start) start t = some tv
            ∧ t2 o = tv (env.table68k o).handler.toNat) := by
  intro n
  induction n with
  | zero =>
    intro start t t2 h
    have e : t2 = t := by
      have : some t = some t2 := h
      exact (Option.some.inj this).symm
    subst e
    exact ⟨fun _ _ => rfl, fun o h1 h2 => by omega⟩
  | succ n ih =>
    intro start t t2 h
    by_cases hq : QualifyingRedirect env start
    · by_cases hi : t (env.table68k start).handler.toNat = cpuop_func.IllegalOpcode
      · rw [redirect_abort env n start t hq hi] at h
        exact absurd h (by simp)
      · rw [redirect_copy env n start t hq hi] at h
        obtain ⟨a, b⟩ := ih (start + 1) _ t2 h
        have hne : ∀ i, (i < start ∨ start + (n + 1) ≤ i ∨ ¬ QualifyingRedirect env i) →
            i ≠ start := by
          rintro i (h1 | h1 | h1) e
          · omega
          · omega
          · exact h1 (e ▸ hq)
        have ha : ∀ i, (i < start ∨ start + (n + 1) ≤ i ∨ ¬ QualifyingRedirect env i) →
            t2 i = t i := by
          intro i hc
          have := a i (by rcases hc with h1 | h1 | h1
                          · exact Or.inl (by omega)
                          · exact Or.inr (Or.inl (by omega))
                          · exact Or.inr (Or.inr h1))
          rw [this, Function.update_noteq (hne i hc)]
        refine ⟨ha, ?_⟩
        intro o h1 h2 ho
        by_cases hos : o = start
        · subst hos
          have hs : t2 o = t (env.table68k o).handler.toNat := by
            rw [a o (Or.inl (by omega)), Function.update_same]
          refine ⟨by rw [hs]; exact hi, fun hnq => ?_, t, ?_, hs⟩
          · rw [hs, ha _ (Or.inr (Or.inr hnq))]
          · rw [Nat.sub_self]
            rfl
        · obtain ⟨b1, b2, tv, b3, b4⟩ := b o (by omega) (by omega) ho
          refine ⟨b1, b2, tv, ?_, b4⟩
          have e : o - start = (o - (start + 1)) + 1 := by omega
          rw [e, redirect_copy env _ start t hq hi]
          exact b3
    · rw [redirect_pass env n start t hq] at h
      obtain ⟨a, b⟩ := ih (start + 1) t t2 h
      have ha : ∀ i, (i < start ∨ start + (n + 1) ≤ i ∨ ¬ QualifyingRedirect env i) →
          t2 i = t i := by
        intro i hc
        by_cases e : i = start
        · exact a i (Or.inl (by omega))
        · exact a i (by rcases hc with h1 | h1 | h1
                        · exact Or.inl (by omega)
                        · exact Or.inr (Or.inl (by omega))
                        · exact Or.inr (Or.inr h1))
      refine ⟨ha, ?_⟩
      intro o h1 h2 ho
      have hos : o ≠ start := fun e => hq (e ▸ ho)
      obtain ⟨b1, b2, tv, b3, b4⟩ := b o (by omega) (by omega) ho
      refine ⟨b1, b2, tv, ?_, b4⟩
      have e : o - start = (o - (start + 1)) + 1 := by omega
      rw [e, redirect_pass env _ start t hq]
      exact b3

/-- The third loop aborts exactly when it reaches a qualifying opcode whose
redirect target holds `IllegalOpcode` at that moment. -/
theorem redirect_none_iff (env : Env) : ∀ (n start : Nat) (t : Nat → cpuop_func),
    redirectOpcodes env n start t = none
    ↔ ∃ k, k < n ∧ QualifyingRedirect env (start + k)
        ∧ ∃ tv, redirectOpcodes env k start t = some tv
          ∧ tv (env.table68k (start + k)).handler.toNat = cpuop_func.IllegalOpcode := by
  intro n
  induction n with
  | zero =>
    intro start t
    constructor
    · intro h
      have : some t = none := h
      exact absurd this (by simp)
    · rintro ⟨k, hk, _⟩
      omega
  | succ n ih =>
    intro start t
    have shift : ∀ (u : Nat → cpuop_func),
        (∀ k, redirectOpcodes env (k + 1) start t = redirectOpcodes env k (start + 1) u) →
        ¬ (QualifyingRedirect env start
            ∧ t (env.table68k start).handler.toNat = cpuop_func.IllegalOpcode) →
        (redirectOpcodes env (n + 1) start t = none
          ↔ ∃ k, k < n + 1 ∧ QualifyingRedirect env (start + k)
            ∧ ∃ tv, redirectOpcodes env k start t = some tv
              ∧ tv (env.table68k (start + k)).handler.toNat = cpuop_func.IllegalOpcode) := by
      intro u hu hno
      rw [hu n, ih (start + 1) u]
      constructor
      · rintro ⟨k, hk, hq, tv, h1, h2⟩
        have e : start + 1 + k = start + (k + 1) := by omega
        rw [e] at hq h2
        exact ⟨k + 1, by omega, hq, tv, by rw [hu k]; exact h1, h2⟩
      · rintro ⟨k, hk, hq, tv, h1, h2⟩
        cases k with
        | zero =>
          exfalso
          apply hno
          have e : tv = t := by
            have : some t = some tv := h1
            exact (Option.some.inj this).symm
          subst e
          exact ⟨hq, h2⟩
        | succ k =>
          have e : start + (k + 1) = start + 1 + k := by omega
          rw [e] at hq h2
          exact ⟨k, by omega, hq, tv, by rw [← hu k]; exact h1, h2⟩
    by_cases hq : QualifyingRedirect env start
    · by_cases hi : t (env.table68k start).handler.toNat = cpuop_func.IllegalOpcode
      · rw [redirect_abort env n start t hq hi]
        exact ⟨fun _ => ⟨0, by omega, hq, t, rfl, hi⟩, fun _ => rfl⟩
      · exact shift _ (fun k => redirect_copy env k start t hq hi) (fun h => hi h.2)
    · exact shift t (fun k => redirect_pass env k start t hq) (fun h => hq h.1)

theorem redirect_pass_range (env : Env) : ∀ (n start : Nat) (t : Nat → cpuop_func),
    (∀ k, k < n → ¬ QualifyingRedirect env (start + k)) →
    redirectOpcodes env n start t = some t := by
  intro n
  induction n with
  | zero => intro start t _; rfl
  | succ n ih =>
    intro start t h
    rw [redirect_pass env n start t (h 0 (by omega))]
    exact ih (start + 1) t (fun k hk => by
      have := h (k + 1) (by omega)
      have e : start + (k + 1) = start + 1 + k := by omega
      rwa [e] at this)

theorem redirect_append (env : Env) : ∀ (a b start : Nat) (t : Nat → cpuop_func),
    redirectOpcodes env (a + b) start t
      = (redirectOpcodes env a start t).bind (redirectOpcodes env b (start + a)) := by
  intro a
  induction a with
  | zero =>
    intro b start t
    rw [Nat.zero_add]
    rfl
  | succ a ih =>
    intro b start t
    have e : a + 1 + b = (a + b) + 1 := by omega
    have e2 : start + (a + 1) = start + 1 + a := by omega
    rw [e, e2]
    by_cases hq : QualifyingRedirect env start
    · by_cases hi : t (env.table68k start).handler.toNat = cpuop_func.IllegalOpcode
      · rw [redirect_abort env _ start t hq hi, redirect_abort env _ start t hq hi]
        rfl
      · rw [redirect_copy env _ start t hq hi, redirect_copy env _ start t hq hi]
        exact ih b (start + 1) _
    · rw [redirect_pass env _ start t hq, redirect_pass env _ start t hq]
      exact ih b (start + 1) _

theorem installDescriptors_listed : ∀ (tbl : List cputbl) (t : Nat → cpuop_func) (i : Nat),
    (∃ d ∈ installedRows tbl, d.opcode = i) →
    ∃ d ∈ installedRows tbl, d.opcode = i ∧ d.handler = installDescriptors tbl t i := by
  intro tbl
  induction tbl with
  | nil =>
    intro t i h
    obtain ⟨d, hd, _⟩ := h
    exact absurd hd (List.not_mem_nil d)
  | cons d ds ih =>
    intro t i h
    by_cases hn : d.handler = cpuop_func.null
    · obtain ⟨e, he, _⟩ := h
      have : installedRows (d :: ds) = [] := by
        unfold installedRows
        rw [List.takeWhile_cons]
        simp [hn]
      rw [this] at he
      exact absurd he (List.not_mem_nil e)
    · rw [installDescriptors_cons d ds t hn, installedRows_cons d ds hn]
      rw [installedRows_cons d ds hn] at h
      rcases installDescriptors_slot ds (Function.update t d.opcode d.handler) i with
        h1 | ⟨e, he, h2⟩
      · obtain ⟨e, he, ho⟩ := h
        rcases List.mem_cons.mp he with rfl | he2
        · refine ⟨e, List.mem_cons_self _ _, ho, ?_⟩
          rw [h1, ← ho, Function.update_same]
        · obtain ⟨f, hf, h3⟩ := ih (Function.update t d.opcode d.handler) i ⟨e, he2, ho⟩
          exact ⟨f, List.mem_cons_of_mem _ hf, h3⟩
      · exact ⟨e, List.mem_cons_of_mem _ he, h2⟩

theorem installDescriptors_unlisted (tbl : List cputbl) (t : Nat → cpuop_func) (i : Nat)
    (h : ∀ d ∈ installedRows tbl, d.opcode ≠ i) :
    installDescriptors tbl t i = t i := by
  rcases installDescriptors_slot tbl t i with h1 | ⟨d, hd, h2, _⟩
  · exact h1
  · exact absurd h2 (h d hd)

/-- The third loop keeps every property of the slots that the table had
before it, when the redirect targets it reads are table indices. -/
theorem redirect_range (env : Env) (S : cpuop_func → Prop)
    (hwf : ∀ o, o < 65536 → QualifyingRedirect env o →
      (env.table68k o).handler.toNat < 65536) :
    ∀ (n start : Nat) (t t2 : Nat → cpuop_func),
      redirectOpcodes env n start t = some t2 →
      (∀ i, i < 65536 → S (t i)) → ∀ i, i < 65536 → S (t2 i) := by
  intro n
  induction n with
  | zero =>
    intro start t t2 h hS
    have e : t2 = t := by
      have : some t = some t2 := h
      exact (Option.some.inj this).symm
    subst e
    exact hS
  | succ n ih =>
    intro start t t2 h hS
    by_cases hq : QualifyingRedirect env start
    · by_cases hi : t (env.table68k start).handler.toNat = cpuop_func.IllegalOpcode
      · rw [redirect_abort env n start t hq hi] at h
        exact absurd h (by simp)
      · rw [redirect_copy env n start t hq hi] at h
        refine ih (start + 1) _ t2 h ?_
        intro i hi2
        by_cases e : i = start
        · rw [e, Function.update_same]
          exact hS _ (hwf start (e ▸ hi2) hq)
        · rw [Function.update_noteq e]
          exact hS i hi2
    · rw [redirect_pass env n start t hq] at h
      exact ih (start + 1) t t2 h hS

theorem qualifying_in_range (env : Env) (hwf : RedirectTargetsInRange env) (o : Nat)
    (ho : o < 65536) (hq : QualifyingRedirect env o) :
    (env.table68k o).handler.toNat < 65536 := by
  rcases hwf o ho with h | ⟨h1, h2⟩
  · exact absurd h hq.2.2
  · omega

theorem demoTable_decode (o : Nat) :
    demoTableEnv.table68k o
      = if o = 0x1001 then ⟨1, 0, 0x1000⟩
        else if o = 0x4E71 ∨ o = 0x1000 then ⟨1, 0, -1⟩
        else ⟨0, 0, -1⟩ := rfl

theorem demoTable_qualifying (o : Nat) : QualifyingRedirect demoTableEnv o ↔ o = 0x1001 := by
  unfold QualifyingRedirect
  rw [demoTable_decode]
  have hI : demoTableEnv.i_ILLG = 0 := rfl
  rw [hI]
  by_cases h : o = 0x1001
  · simp [h]
  · by_cases h2 : o = 0x4E71 ∨ o = 0x1000
    · simp [h, h2]
    · simp [h, h2]

theorem demoAbort_qualifying (o : Nat) : QualifyingRedirect demoAbortEnv o ↔ o = 0x1001 :=
  demoTable_qualifying o

theorem demoTable_in_range : RedirectTargetsInRange demoTableEnv := by
  intro o _
  rw [demoTable_decode]
  by_cases h : o = 0x1001
  · simp [h]
  · by_cases h2 : o = 0x4E71 ∨ o = 0x1000
    · simp [h, h2]
    · simp [h, h2]

theorem demoTable_installed (t : Nat → cpuop_func) :
    installDescriptors demoTableEnv.op_smalltbl_5_ff t
      = Function.update (Function.update t 0x4E71 (cpuop_func.op 1)) 0x1000 (cpuop_func.op 2) := by
  show installDescriptors
    [⟨cpuop_func.op 1, 0x4E71⟩, ⟨cpuop_func.op 2, 0x1000⟩, ⟨cpuop_func.null, 0⟩,
     ⟨cpuop_func.op 3, 0x2000⟩] t = _
  rw [installDescriptors_cons _ _ _ (by simp), installDescriptors_cons _ _ _ (by simp),
    installDescriptors_stop _ _ _ rfl]

theorem demoTable_rows :
    installedRows demoTableEnv.op_smalltbl_5_ff
      = [⟨cpuop_func.op 1, 0x4E71⟩, ⟨cpuop_func.op 2, 0x1000⟩] := rfl

theorem demoTable_slot (t : Nat → cpuop_func) (i : Nat) (hi : i < 65536) :
    demoTable t i
      = if i = 0x1001 then cpuop_func.op 2
        else if i = 0x1000 then cpuop_func.op 2
        else if i = 0x4E71 then cpuop_func.op 1
        else cpuop_func.IllegalOpcode := by
  unfold demoTable
  rw [demoTable_installed, Function.update_apply, Function.update_apply, Function.update_apply,
    fillIllegal_lt 65536 t i hi]

theorem redirect_one (env : Env) (n start k : Nat) (t : Nat → cpuop_func)
    (hk : k < n)
    (hq : ∀ j, j < n → (QualifyingRedirect env (start + j) ↔ j = k))
    (hi : t (env.table68k (start + k)).handler.toNat ≠ cpuop_func.IllegalOpcode) :
    redirectOpcodes env n start t
      = some (Function.update t (start + k) (t (env.table68k (start + k)).handler.toNat)) := by
  have e : n = k + ((n - k - 1) + 1) := by omega
  rw [e, redirect_append, redirect_pass_range env k start t (fun j hj hqj => by
    have := (hq j (by omega)).mp hqj
    omega)]
  show redirectOpcodes env ((n - k - 1) + 1) (start + k) t = _
  rw [redirect_copy env _ (start + k) t ((hq k hk).mpr rfl) hi]
  exact redirect_pass_range env _ _ _ (fun j hj hqj => by
    have e2 : start + k + 1 + j = start + (k + 1 + j) := by omega
    rw [e2] at hqj
    have := (hq (k + 1 + j) (by omega)).mp hqj
    omega)

theorem demoTable_build (t : Nat → cpuop_func) :
    BuildCPUFunctionTable demoTableEnv t = some (demoTable t) := by
  unfold BuildCPUFunctionTable
  have hrow : (demoTableEnv.table68k (0 + 4097)).handler.toNat = 0x1000 := by
    rw [demoTable_decode]
    simp
  have hslot : installDescriptors demoTableEnv.op_smalltbl_5_ff (fillIllegal 65536 t) 0x1000
      = cpuop_func.op 2 := by
    rw [demoTable_installed, Function.update_same]
  rw [redirect_one demoTableEnv 65536 0 4097 _ (by omega)
    (fun j _ => by rw [Nat.zero_add]; exact demoTable_qualifying j)
    (by rw [hrow, hslot]; simp)]
  rw [hrow, hslot]
  rfl

theorem demoAbort_build (t : Nat → cpuop_func) :
    redirectOpcodes demoAbortEnv 4097 0
        (installDescriptors demoAbortEnv.op_smalltbl_5_ff (fillIllegal 65536 t))
      = some (fillIllegal 65536 t) := by
  have h : installDescriptors demoAbortEnv.op_smalltbl_5_ff (fillIllegal 65536 t)
      = fillIllegal 65536 t := installDescriptors_stop _ _ _ rfl
  rw [h]
  exact redirect_pass_range demoAbortEnv 4097 0 _ (fun k hk hq => by
    rw [Nat.zero_add] at hq
    have := (demoAbort_qualifying k).mp hq
    omega)

theorem callHandler_mult (env : Env) (henv : EnvKeepsMultiplierPositive env)
    (f : cpuop_func) (opcode : Nat) (x : Machine) (r : Machine × Nat)
    (hx : 1 ≤ x.m68k_clocks_mult) (h : callHandler env f opcode x = some r) :
    1 ≤ r.1.m68k_clocks_mult := by
  cases f with
  | null => simp [callHandler] at h
  | IllegalOpcode =>
    simp only [callHandler, Option.some.injEq] at h
    rw [← h]
    unfold IllegalOpcode
    split_ifs <;> exact henv.2.2 _ _ _ x hx
  | op id =>
    simp only [callHandler, Option.some.injEq] at h
    rw [← h]
    exact henv.2.1 id opcode x hx

theorem execute_step_mult (env : Env) (henv : EnvKeepsMultiplierPositive env)
    (x x' : Machine) (c : Int) (hx : 1 ≤ x.m68k_clocks_mult)
    (h : m68k_execute_step env x = some (x', c)) : 1 ≤ x'.m68k_clocks_mult := by
  unfold m68k_execute_step at h
  cases hd : m68k_execute_dispatch env (m68k_execute_pending env x) with
  | none => rw [hd] at h; simp at h
  | some r =>
    rw [hd] at h
    simp only [Option.map_some', Option.some.injEq, Prod.mk.injEq] at h
    rw [← h.1]
    show 1 ≤ r.1.m68k_clocks_mult
    have hp : 1 ≤ (m68k_execute_pending env x).m68k_clocks_mult := by
      unfold m68k_execute_pending
      split_ifs
      · rw [(set_irq2_statics env _ { x with checkForIRQToHandle := 0 }).1]
        exact hx
      · exact hx
    unfold m68k_execute_dispatch at hd
    exact callHandler_mult env henv _ _
      { env.M68KInstructionHook (m68k_execute_pending env x) with
        trace := (env.M68KInstructionHook (m68k_execute_pending env x)).trace
          ++ [Event.dispatch
            (env.get_iword (env.M68KInstructionHook (m68k_execute_pending env x)) 0 % 65536)] }
      r (henv.1 (m68k_execute_pending env x) hp) hd

theorem execute_loop_mult (env : Env) (henv : EnvKeepsMultiplierPositive env) :
    ∀ (fuel : Nat) (x : Machine) (r : Machine × Int), 1 ≤ x.m68k_clocks_mult →
      m68k_execute_loop env fuel x = some r → 1 ≤ r.1.m68k_clocks_mult := by
  intro fuel
  induction fuel with
  | zero =>
    intro x r _ h
    simp [m68k_execute_loop] at h
  | succ f ih =>
    intro x r hx h
    rw [m68k_execute_loop] at h
    by_cases hd : x.regs.spcflags &&& env.SPCFLAG_DEBUGGER ≠ 0
    · rw [if_pos hd] at h
      simp only [Option.some.injEq] at h
      rw [← h]
      exact hx
    · rw [if_neg hd] at h
      cases hs : m68k_execute_step env x with
      | none => rw [hs] at h; simp at h
      | some p =>
        obtain ⟨x', c⟩ := p
        rw [hs] at h
        simp only at h
        have hx' := execute_step_mult env henv x x' c hx hs
        by_cases hr : x'.regs.remainingCycles > 0
        · rw [if_pos hr] at h
          exact ih x' r hx' h
        · rw [if_neg hr] at h
          simp only [Option.some.injEq] at h
          rw [← h]
          exact hx'

theorem pulse_reset_mult (env : Env) (m m' : Machine) (h : m68k_pulse_reset env m = some m') :
    m'.m68k_clocks_mult = m.m68k_clocks_mult := by
  unfold m68k_pulse_reset at h
  by_cases hi : m.emulation_initialized = 0
  · rw [if_pos hi] at h
    cases hb : BuildCPUFunctionTable env m.cpuFunctionTable with
    | none => rw [hb] at h; simp at h
    | some t =>
      rw [hb] at h
      simp only [Option.map_some', Option.some.injEq] at h
      rw [← h]
      rfl
  · rw [if_neg hi] at h
    simp only [Option.some.injEq] at h
    rw [← h]
    rfl

/-- C15: `m68k_is_valid_instruction`. For every table, value `x` and
`cpu_type`, the result is non-zero if and only if the slot at `x mod 65536`
is not the `IllegalOpcode` handler; it is the same for every `cpu_type` and
for every `x` with the same low 16 bits. For a 16-bit opcode it is 0 exactly
when the slot is `IllegalOpcode`, and then a call through the slot is a call
of `IllegalOpcode`. -/
theorem m68k_is_valid_instruction_iff (env : Env) (m : Machine) (x t : Nat) :
    (m68k_is_valid_instruction x t m ≠ 0
        ↔ m.cpuFunctionTable (x % 65536) ≠ cpuop_func.IllegalOpcode)
    ∧ (∀ t2 : Nat, m68k_is_valid_instruction x t2 m = m68k_is_valid_instruction x t m)
    ∧ (∀ y : Nat, y % 65536 = x % 65536 →
        m68k_is_valid_instruction y t m = m68k_is_valid_instruction x t m)
    ∧ (x < 65536 →
        (m68k_is_valid_instruction x t m = 0
          ↔ m.cpuFunctionTable x = cpuop_func.IllegalOpcode)
        ∧ (m.cpuFunctionTable x = cpuop_func.IllegalOpcode →
            ∀ s : Machine, callHandler env (m.cpuFunctionTable x) x s
              = some (IllegalOpcode env x s))
        ∧ (∀ id, m.cpuFunctionTable x = cpuop_func.op id →
            ∀ s : Machine, callHandler env (m.cpuFunctionTable x) x s
              = some (env.handler id x s))) := by
  have hand : ∀ z : Nat, z &&& 0xFFFF = z % 65536 := fun z =>
    Nat.and_pow_two_sub_one_eq_mod z 16
  have hval : ∀ z u : Nat, m68k_is_valid_instruction z u m
      = if m.cpuFunctionTable (z % 65536) ≠ cpuop_func.IllegalOpcode then 1 else 0 := by
    intro z u
    unfold m68k_is_valid_instruction
    rw [hand]
  refine ⟨?_, fun t2 => by rw [hval, hval], fun y hy => by rw [hval, hval, hy], fun hx => ?_⟩
  · rw [hval]
    by_cases h : m.cpuFunctionTable (x % 65536) = cpuop_func.IllegalOpcode
    · simp [h]
    · simp [h]
  · rw [hval, Nat.mod_eq_of_lt hx]
    refine ⟨?_, fun h s => by rw [h]; rfl, fun id h s => by rw [h]; rfl⟩
    by_cases h : m.cpuFunctionTable x = cpuop_func.IllegalOpcode
    · simp [h]
    · simp [h]


/-- C15 at the example machine with slot `0x4AFC` illegal: `0x4AFC` and
`0x14AFC` are not valid, whatever the `cpu_type`, and `0x4E71` is. -/
theorem m68k_is_valid_instruction_iff_witness :
    m68k_is_valid_instruction 0x4AFC 0 demoIllegalSlot = 0
    ∧ m68k_is_valid_instruction 0x14AFC 7 demoIllegalSlot = 0
    ∧ m68k_is_valid_instruction 0x4E71 0 demoIllegalSlot ≠ 0
    ∧ (m68k_is_valid_instruction 0x4AFC 0 demoIllegalSlot = 0
        ↔ demoIllegalSlot.cpuFunctionTable 0x4AFC = cpuop_func.IllegalOpcode) :=
  ⟨by decide, by decide, by decide,
   ((m68k_is_valid_instruction_iff demoEnv demoIllegalSlot 0x4AFC 0).2.2.2 (by decide)).1⟩

/-- C16: dispatch table totality. For every descriptor list and every decode
table whose redirect targets are `-1` or in `0..65535`, whatever the table
held before: if `BuildCPUFunctionTable` returns without aborting, each of the
65536 slots holds a handler that is not null, and it is `IllegalOpcode` or
the handler of a row of the descriptor list before the terminating row. -/
theorem BuildCPUFunctionTable_total (env : Env) (t t2 : Nat → cpuop_func)
    (hwf : RedirectTargetsInRange env)
    (hbuild : BuildCPUFunctionTable env t = some t2) :
    ∀ i : Nat, i < 65536 →
      t2 i ≠ cpuop_func.null
      ∧ (t2 i = cpuop_func.IllegalOpcode
          ∨ ∃ d ∈ installedRows env.op_smalltbl_5_ff, d.handler = t2 i) := by
  refine redirect_range env
    (fun x => x ≠ cpuop_func.null
      ∧ (x = cpuop_func.IllegalOpcode
          ∨ ∃ d ∈ installedRows env.op_smalltbl_5_ff, d.handler = x))
    (fun o ho hq => qualifying_in_range env hwf o ho hq) 65536 0 _ t2 hbuild ?_
  intro i hi
  rcases installDescriptors_slot env.op_smalltbl_5_ff (fillIllegal 65536 t) i with
    h | ⟨d, hd, _, h⟩
  · rw [fillIllegal_lt 65536 t i hi] at h
    show installDescriptors env.op_smalltbl_5_ff (fillIllegal 65536 t) i ≠ cpuop_func.null ∧ _
    rw [h]
    exact ⟨by simp, Or.inl rfl⟩
  · show installDescriptors env.op_smalltbl_5_ff (fillIllegal 65536 t) i ≠ cpuop_func.null ∧ _
    rw [← h]
    exact ⟨installedRows_nonnull _ d hd, Or.inr ⟨d, hd, rfl⟩⟩

/-- C16 at the example table, built over a table of null slots: the build
returns, and each slot holds `IllegalOpcode` or the handler of one of the two
rows before the terminator. -/
theorem BuildCPUFunctionTable_total_witness :
    RedirectTargetsInRange demoTableEnv
    ∧ BuildCPUFunctionTable demoTableEnv (fun _ => cpuop_func.null)
        = some (demoTable (fun _ => cpuop_func.null))
    ∧ ∀ i : Nat, i < 65536 →
        demoTable (fun _ => cpuop_func.null) i ≠ cpuop_func.null
        ∧ (demoTable (fun _ => cpuop_func.null) i = cpuop_func.IllegalOpcode
            ∨ ∃ d ∈ installedRows demoTableEnv.op_smalltbl_5_ff,
                d.handler = demoTable (fun _ => cpuop_func.null) i) :=
  ⟨demoTable_in_range, demoTable_build _,
   BuildCPUFunctionTable_total demoTableEnv (fun _ => cpuop_func.null)
     (demoTable (fun _ => cpuop_func.null)) demoTable_in_range (demoTable_build _)⟩

/-- C17: the clock multiplier clamp. After `m68k_set_clocks_mult(mult)`,
`m68k_get_clocks_mult()` is `mult` when `mult >= 1` and 1 otherwise. So in
every state the functions of the file lead to from program start (multiplier
1), with collaborators that change the static only through the setter, the
multiplier is at least 1 and the divisors in `m68k_execute`,
`m68k_cycles_run` and `m68k_cycles_remaining` are not 0. -/
theorem m68k_clocks_mult_clamp (env : Env) :
    (∀ (mult : Int) (m : Machine),
      m68k_get_clocks_mult (m68k_set_clocks_mult mult m) = (if mult ≥ 1 then mult else 1)
      ∧ (mult ≥ 1 → m68k_get_clocks_mult (m68k_set_clocks_mult mult m) = mult)
      ∧ (¬ mult ≥ 1 → m68k_get_clocks_mult (m68k_set_clocks_mult mult m) = 1)
      ∧ 1 ≤ m68k_get_clocks_mult (m68k_set_clocks_mult mult m))
    ∧ (EnvKeepsMultiplierPositive env → ∀ m : Machine, Reachable env m →
        1 ≤ m.m68k_clocks_mult ∧ m.m68k_clocks_mult ≠ 0) := by
  have hset : ∀ (mult : Int) (m : Machine),
      1 ≤ (m68k_set_clocks_mult mult m).m68k_clocks_mult := by
    intro mult m
    show 1 ≤ (if mult ≥ 1 then mult else 1)
    split_ifs with h
    · exact h
    · exact le_refl 1
  refine ⟨fun mult m => ⟨rfl, fun h => if_pos h, fun h => if_neg h, hset mult m⟩, ?_⟩
  intro henv m hm
  have key : 1 ≤ m.m68k_clocks_mult := by
    induction hm with
    | start m h => rw [h]
    | set_clocks_mult mult m _ _ => exact hset mult m
    | pulse_reset m m' _ h ih => rw [pulse_reset_mult env m m' h]; exact ih
    | execute fuel N m r _ h ih =>
      unfold m68k_execute at h
      by_cases hs : m.regs.stopped ≠ 0
      · rw [if_pos hs] at h
        simp only [Option.some.injEq] at h
        rw [← h]
        exact ih
      · rw [if_neg hs] at h
        exact execute_loop_mult env henv fuel (m68k_execute_enter N m) r ih h
    | set_irq L m _ ih =>
      unfold m68k_set_irq
      split_ifs
      · rw [(set_irq2_statics env L m).1]; exact ih
      · exact ih
    | set_irq2 L m _ ih => rw [(set_irq2_statics env L m).1]; exact ih
    | exception_interrupt L m _ ih => rw [(exception_interrupt_statics env L m).1]; exact ih
    | get_reg reg m _ ih =>
      unfold m68k_get_reg
      split_ifs <;> exact ih
    | set_reg reg value m _ ih =>
      unfold m68k_set_reg
      split_ifs <;> exact ih
    | modify_timeslice cycles m _ ih => exact ih
    | end_timeslice m _ ih => exact ih
    | debug_halt m _ ih => exact ih
    | debug_resume m _ ih => exact ih
  exact ⟨key, by omega⟩

/-- C17 at the example environment: the setter clamps 0 and -5 to 1 and
keeps 3; the state after `m68k_execute(1)` on the example machine with a
pending request, reached from program start, has a multiplier of at least 1. -/
theorem m68k_clocks_mult_clamp_witness :
    m68k_get_clocks_mult (m68k_set_clocks_mult 3 demoMachine) = 3
    ∧ m68k_get_clocks_mult (m68k_set_clocks_mult 0 demoMachine) = 1
    ∧ m68k_get_clocks_mult (m68k_set_clocks_mult (-5) demoMachine) = 1
    ∧ EnvKeepsMultiplierPositive demoEnv
    ∧ Reachable demoEnv demoAfterDelivery
    ∧ 1 ≤ demoAfterDelivery.m68k_clocks_mult := by
  have henv : EnvKeepsMultiplierPositive demoEnv :=
    ⟨fun _ h => h, fun _ _ _ h => h, fun _ _ _ _ h => h⟩
  have h1 : Reachable demoEnv
      (m68k_set_clocks_mult 2 { demoPending with m68k_clocks_mult := 1 }) :=
    Reachable.set_clocks_mult 2 _ (Reachable.start _ rfl)
  have h2 : Reachable demoEnv demoPending := h1
  have h3 : Reachable demoEnv demoAfterDelivery :=
    Reachable.execute 1 1 demoPending (demoAfterDelivery, 2) h2 rfl
  exact ⟨by decide, by decide, by decide, henv, h3,
    ((m68k_clocks_mult_clamp demoEnv).2 henv demoAfterDelivery h3).1⟩

/-- C18: the register accessors. For every identifier `r` among the 8 data
registers, the 8 address registers and the program counter (0..16) and every
value `v`, `m68k_get_reg(r)` after `m68k_set_reg(r, v)` is `v`, every other
general register is unchanged and, unless `r` is the program counter, so is
the program counter. `M68K_REG_SP` reads address register 7 and setting it
sets address register 7. For the identifiers USP, PREF_ADDR, PREF_DATA, PPC
and IR (19..23) `m68k_get_reg` returns 0 without changing the state and
`m68k_set_reg` changes nothing. -/
theorem m68k_reg_accessors (env : Env) (m : Machine) (v : Nat) :
    (∀ r : Nat, r ≤ M68K_REG_PC →
      (m68k_get_reg env r (m68k_set_reg env r v m)).1 = v
      ∧ (∀ j : Nat, j ≤ M68K_REG_A7 → j ≠ r →
          (m68k_get_reg env j (m68k_set_reg env r v m)).1 = (m68k_get_reg env j m).1
          ∧ (m68k_set_reg env r v m).regs.regs j = m.regs.regs j)
      ∧ (r ≠ M68K_REG_PC →
          (m68k_get_reg env M68K_REG_PC (m68k_set_reg env r v m)).1
            = (m68k_get_reg env M68K_REG_PC m).1
          ∧ (m68k_set_reg env r v m).regs.pc = m.regs.pc))
    ∧ m68k_get_reg env M68K_REG_SP m = m68k_get_reg env M68K_REG_A7 m
    ∧ (m68k_get_reg env M68K_REG_A7 (m68k_set_reg env M68K_REG_SP v m)).1 = v
    ∧ m68k_set_reg env M68K_REG_SP v m = m68k_set_reg env M68K_REG_A7 v m
    ∧ (∀ r : Nat, M68K_REG_USP ≤ r → r ≤ M68K_REG_IR →
        m68k_get_reg env r m = (0, m) ∧ m68k_set_reg env r v m = m) := by
  refine ⟨fun r hr => ?_, ?_, ?_, ?_, fun r h1 h2 => ?_⟩
  · unfold M68K_REG_PC at hr
    by_cases hr15 : r ≤ 15
    · refine ⟨?_, fun j hj hne => ?_, fun _ => ?_⟩
      · simp [m68k_get_reg, m68k_set_reg, M68K_REG_A7, hr15]
      · unfold M68K_REG_A7 at hj
        simp [m68k_get_reg, m68k_set_reg, M68K_REG_A7, hr15, hj, Function.update_noteq hne]
      · simp [m68k_get_reg, m68k_set_reg, M68K_REG_A7, M68K_REG_PC, hr15]
    · have hr16 : r = 16 := by omega
      subst hr16
      refine ⟨?_, fun j hj hne => ?_, fun h => absurd rfl h⟩
      · simp [m68k_get_reg, m68k_set_reg, M68K_REG_A7, M68K_REG_PC]
      · unfold M68K_REG_A7 at hj
        simp [m68k_get_reg, m68k_set_reg, M68K_REG_A7, M68K_REG_PC, hj]
  · simp [m68k_get_reg, M68K_REG_A7, M68K_REG_PC, M68K_REG_SR, M68K_REG_SP]
  · simp [m68k_get_reg, m68k_set_reg, M68K_REG_A7, M68K_REG_PC, M68K_REG_SR, M68K_REG_SP]
  · simp [m68k_set_reg, M68K_REG_A7, M68K_REG_PC, M68K_REG_SR, M68K_REG_SP]
  · unfold M68K_REG_USP at h1
    unfold M68K_REG_IR at h2
    have a1 : ¬ r ≤ 15 := by omega
    have a2 : ¬ r = 16 := by omega
    have a3 : ¬ r = 17 := by omega
    have a4 : ¬ r = 18 := by omega
    simp [m68k_get_reg, m68k_set_reg, M68K_REG_A7, M68K_REG_PC, M68K_REG_SR, M68K_REG_SP, a1,
      a2, a3, a4]

/-- C18 at the example machine: data register 3 and the program counter
written and read back, the stack pointer read through both names, and the
user stack pointer read as 0. -/
theorem m68k_reg_accessors_witness :
    (m68k_get_reg demoEnv 3 (m68k_set_reg demoEnv 3 0xDEADBEEF demoMachine)).1 = 0xDEADBEEF
    ∧ (m68k_get_reg demoEnv M68K_REG_PC
        (m68k_set_reg demoEnv M68K_REG_PC 0x802000 demoMachine)).1 = 0x802000
    ∧ (m68k_get_reg demoEnv M68K_REG_SP demoMachine).1 = 0x4000
    ∧ (m68k_get_reg demoEnv M68K_REG_A7 demoMachine).1 = 0x4000
    ∧ (m68k_get_reg demoEnv M68K_REG_USP demoMachine).1 = 0 :=
  ⟨((m68k_reg_accessors demoEnv demoMachine 0xDEADBEEF).1 3 (by decide)).1,
   ((m68k_reg_accessors demoEnv demoMachine 0x802000).1 M68K_REG_PC (by decide)).1,
   by decide, by decide, by decide⟩

/-- C19, what the code does instead: `m68k_pulse_reset()` zeroes the
remaining-cycle counter but leaves the interrupt-cycle accumulator as it
was, so the next `m68k_execute(N)` enters its loop with the scaled budget
minus the interrupt cycles billed before the reset. -/
theorem m68k_pulse_reset_keeps_interrupt_cycles (env : Env) (m m' : Machine) (N : Int)
    (h : m68k_pulse_reset env m = some m') :
    m'.regs.remainingCycles = 0
    ∧ m'.regs.interruptCycles = m.regs.interruptCycles
    ∧ m'.m68k_clocks_mult = m.m68k_clocks_mult
    ∧ (m68k_execute_enter N m').regs.remainingCycles
        = toInt32 (toInt32 (N * m.m68k_clocks_mult) - m.regs.interruptCycles) := by
  have hregs : ∀ x : Machine, x.regs.interruptCycles = m.regs.interruptCycles →
      x.m68k_clocks_mult = m.m68k_clocks_mult →
      (m68k_pulse_reset_registers env x).regs.remainingCycles = 0
      ∧ (m68k_pulse_reset_registers env x).regs.interruptCycles = m.regs.interruptCycles
      ∧ (m68k_pulse_reset_registers env x).m68k_clocks_mult = m.m68k_clocks_mult := by
    intro x h1 h2
    exact ⟨rfl, h1, h2⟩
  have key : m'.regs.remainingCycles = 0
      ∧ m'.regs.interruptCycles = m.regs.interruptCycles
      ∧ m'.m68k_clocks_mult = m.m68k_clocks_mult := by
    unfold m68k_pulse_reset at h
    by_cases hi : m.emulation_initialized = 0
    · rw [if_pos hi] at h
      cases hb : BuildCPUFunctionTable env m.cpuFunctionTable with
      | none => rw [hb] at h; simp at h
      | some t =>
        rw [hb] at h
        simp only [Option.map_some', Option.some.injEq] at h
        rw [← h]
        exact hregs _ rfl rfl
    · rw [if_neg hi] at h
      simp only [Option.some.injEq] at h
      rw [← h]
      exact hregs _ rfl rfl
  refine ⟨key.1, key.2.1, key.2.2, ?_⟩
  show toInt32 (toInt32 (N * m'.m68k_clocks_mult) - m'.regs.interruptCycles) = _
  rw [key.2.1, key.2.2]

/-- C19 at the stopped example machine: `m68k_set_irq(6)` delivers and bills
56 interrupt cycles, the reset that follows leaves the 56 in the accumulator,
and `m68k_execute(10)` would enter its loop with `20 - 56` cycles. -/
theorem m68k_pulse_reset_keeps_interrupt_cycles_witness :
    (m68k_set_irq demoEnv 6 demoStopped).regs.interruptCycles = 56
    ∧ m68k_pulse_reset demoEnv (m68k_set_irq demoEnv 6 demoStopped)
        = some (m68k_pulse_reset_registers demoEnv (m68k_set_irq demoEnv 6 demoStopped))
    ∧ (m68k_pulse_reset_registers demoEnv
        (m68k_set_irq demoEnv 6 demoStopped)).regs.interruptCycles = 56
    ∧ (m68k_execute_enter 10 (m68k_pulse_reset_registers demoEnv
        (m68k_set_irq demoEnv 6 demoStopped))).regs.remainingCycles = 20 - 56 :=
  ⟨by decide, rfl,
   ((m68k_pulse_reset_keeps_interrupt_cycles demoEnv (m68k_set_irq demoEnv 6 demoStopped)
      (m68k_pulse_reset_registers demoEnv (m68k_set_irq demoEnv 6 demoStopped)) 10 rfl).2.1).trans
     (by decide),
   by decide⟩

/-- C20: table construction outcome. `BuildCPUFunctionTable` is the third
loop, over the opcodes `0, 1, ..., 65535` in this order, run on the table in
which every slot was first set to `IllegalOpcode` and then the rows of the
descriptor list before the terminator were installed, a later row replacing
an earlier one with the same opcode: slot `i` then holds the handler of a row
with opcode `i`, or `IllegalOpcode` when no row has opcode `i`. It aborts if
and only if there is an opcode `o` whose decode entry has a mnemonic other
than `i_ILLG`, compatibility level 0 and a redirect target `h` other than
`-1`, such that the loop reaches `o` and slot `h` holds `IllegalOpcode` at
that moment. If it does not abort, the slot of every such opcode is not
`IllegalOpcode` (`m68k_is_valid_instruction` is not 0), it holds what slot
`h` held when `o` was visited, and it equals the final content of slot `h`
whenever `h` is not itself such an opcode; and every opcode whose decode
entry has mnemonic `i_ILLG` or a compatibility level above 0, and that no
installed row names, is still mapped to `IllegalOpcode`. -/
theorem BuildCPUFunctionTable_outcome (env : Env) (t : Nat → cpuop_func) :
    BuildCPUFunctionTable env t
        = redirectOpcodes env 65536 0
            (installDescriptors env.op_smalltbl_5_ff (fillIllegal 65536 t))
    ∧ (∀ i, i < 65536 → fillIllegal 65536 t i = cpuop_func.IllegalOpcode)
    ∧ (∀ i, i < 65536 →
        ((∃ d ∈ installedRows env.op_smalltbl_5_ff, d.opcode = i) →
          ∃ d ∈ installedRows env.op_smalltbl_5_ff, d.opcode = i
            ∧ d.handler = installDescriptors env.op_smalltbl_5_ff (fillIllegal 65536 t) i)
        ∧ ((∀ d ∈ installedRows env.op_smalltbl_5_ff, d.opcode ≠ i) →
          installDescriptors env.op_smalltbl_5_ff (fillIllegal 65536 t) i
            = cpuop_func.IllegalOpcode))
    ∧ (BuildCPUFunctionTable env t = none
        ↔ ∃ o, o < 65536 ∧ QualifyingRedirect env o
            ∧ ∃ tv, redirectOpcodes env o 0
                  (installDescriptors env.op_smalltbl_5_ff (fillIllegal 65536 t)) = some tv
              ∧ tv (env.table68k o).handler.toNat = cpuop_func.IllegalOpcode)
    ∧ (∀ t2, BuildCPUFunctionTable env t = some t2 →
        (∀ o, o < 65536 → QualifyingRedirect env o →
          t2 o ≠ cpuop_func.IllegalOpcode
          ∧ (∀ (m : Machine) (cpu_type : Nat), m.cpuFunctionTable = t2 →
              m68k_is_valid_instruction o cpu_type m ≠ 0)
          ∧ (∃ tv, redirectOpcodes env o 0
                (installDescriptors env.op_smalltbl_5_ff (fillIllegal 65536 t)) = some tv
              ∧ t2 o = tv (env.table68k o).handler.toNat)
          ∧ (¬ QualifyingRedirect env (env.table68k o).handler.toNat →
              t2 o = t2 (env.table68k o).handler.toNat))
        ∧ (∀ o, o < 65536 →
            ((env.table68k o).mnemo = env.i_ILLG ∨ (env.table68k o).clev > 0) →
            (∀ d ∈ installedRows env.op_smalltbl_5_ff, d.opcode ≠ o) →
            t2 o = cpuop_func.IllegalOpcode)) := by
  refine ⟨rfl, fun i hi => fillIllegal_lt 65536 t i hi, fun i hi => ⟨fun h =>
    installDescriptors_listed _ _ i h, fun h => ?_⟩, ?_, ?_⟩
  · rw [installDescriptors_unlisted _ _ i h]
    exact fillIllegal_lt 65536 t i hi
  · unfold BuildCPUFunctionTable
    rw [redirect_none_iff env 65536 0 _]
    constructor
    · rintro ⟨k, hk, hq, tv, h1, h2⟩
      rw [Nat.zero_add] at hq h2
      exact ⟨k, hk, hq, tv, h1, h2⟩
    · rintro ⟨k, hk, hq, tv, h1, h2⟩
      refine ⟨k, hk, ?_, tv, h1, ?_⟩
      · rw [Nat.zero_add]
        exact hq
      · rw [Nat.zero_add]
        exact h2
  · intro t2 hb
    obtain ⟨a, b⟩ := redirect_spec env 65536 0 _ t2 hb
    refine ⟨fun o ho hq => ?_, fun o ho hs hun => ?_⟩
    · obtain ⟨b1, b2, b3⟩ := b o (Nat.zero_le o) (by omega) hq
      refine ⟨b1, fun m c hm => ?_, b3, b2⟩
      unfold m68k_is_valid_instruction
      have e : o &&& 0xFFFF = o := by
        rw [Nat.and_pow_two_sub_one_eq_mod o 16]
        exact Nat.mod_eq_of_lt ho
      rw [e, hm, if_pos b1]
      decide
    · rw [a o (Or.inr (Or.inr (fun hq => qualifying_not_skipped env o hq hs))),
        installDescriptors_unlisted _ _ o hun]
      exact fillIllegal_lt 65536 t o ho

/-- C20 at the example tables, built over a table of null slots. With the two
rows installed the build returns: `0x1001`, which redirects to `0x1000`, is a
valid instruction and its slot equals the final slot `0x1000`, and the
illegal opcode `0x3000` stays on `IllegalOpcode`. With the rows missing the
build aborts at `0x1001`. -/
theorem BuildCPUFunctionTable_outcome_witness :
    BuildCPUFunctionTable demoTableEnv (fun _ => cpuop_func.null)
        = some (demoTable (fun _ => cpuop_func.null))
    ∧ QualifyingRedirect demoTableEnv 0x1001
    ∧ (demoTableEnv.table68k 0x1001).handler.toNat = 0x1000
    ∧ ¬ QualifyingRedirect demoTableEnv 0x1000
    ∧ demoTable (fun _ => cpuop_func.null) 0x1001 ≠ cpuop_func.IllegalOpcode
    ∧ demoTable (fun _ => cpuop_func.null) 0x1001
        = demoTable (fun _ => cpuop_func.null) 0x1000
    ∧ demoTable (fun _ => cpuop_func.null) 0x1001 = cpuop_func.op 2
    ∧ demoTable (fun _ => cpuop_func.null) 0x3000 = cpuop_func.IllegalOpcode
    ∧ BuildCPUFunctionTable demoAbortEnv (fun _ => cpuop_func.null) = none :=
  have hq : QualifyingRedirect demoTableEnv 0x1001 := (demoTable_qualifying 0x1001).mpr rfl
  have hn : ¬ QualifyingRedirect demoTableEnv 0x1000 := fun h =>
    absurd ((demoTable_qualifying 0x1000).mp h) (by decide)
  have hok := (BuildCPUFunctionTable_outcome demoTableEnv (fun _ => cpuop_func.null)).2.2.2.2
    (demoTable (fun _ => cpuop_func.null)) (demoTable_build _)
  ⟨demoTable_build _, hq, rfl, hn,
   (hok.1 0x1001 (by decide) hq).1,
   (hok.1 0x1001 (by decide) hq).2.2.2 hn,
   (demoTable_slot _ 0x1001 (by decide)).trans rfl,
   hok.2 0x3000 (by decide) (Or.inl rfl) (fun d hd => by
     rw [demoTable_rows] at hd
     rcases List.mem_cons.mp hd with rfl | hd2
     · decide
     · rcases List.mem_cons.mp hd2 with rfl | hd3
       · decide
       · exact absurd hd3 (List.not_mem_nil d)),
   (BuildCPUFunctionTable_outcome demoAbortEnv (fun _ => cpuop_func.null)).2.2.2.1.mpr
     ⟨0x1001, by decide, (demoAbort_qualifying 0x1001).mpr rfl, _, demoAbort_build _,
      fillIllegal_lt 65536 _ 0x1000 (by decide)⟩⟩

end M68K
